import Mathlib

/-!
# Physica: a shallow embedding of the vectorverse physics engine

The C++ sources `Vector2D.h`, `PhysicsObject.h` and `PhysicsEngine.cpp` are
translated function by function.  The scalar type `float` is idealised as an
arbitrary linearly ordered field `F` that carries a square-root operation
(`HasSqrt.sqrt`, standing for `std::sqrt`); rounding, infinities and NaN are
not modelled.  Float literals are read as the decimal fractions they denote
(`0.0001f` is `1 / 10000`, `0.95f` is `19 / 20`).

The engine stores `std::shared_ptr<PhysicsObject>`; the embedding stores the
objects themselves in a list, i.e. it assumes that no object has been added to
the collection twice.  In-place mutation is rendered as state passing.
-/

namespace Physica

/-! ## Scalars -/

/-- The square-root operation on scalars (`std::sqrt`). -/
class HasSqrt (F : Type) where
  /-- The value of `std::sqrt x`. -/
  sqrt : F → F

/-- The two facts about `std::sqrt` that the exact-arithmetic proofs rely on:
on a non-negative argument the result is non-negative and squares to the
argument. -/
def SqrtSpec (F : Type) [LinearOrderedField F] [HasSqrt F] : Prop :=
  ∀ x : F, 0 ≤ x → 0 ≤ HasSqrt.sqrt x ∧ HasSqrt.sqrt x * HasSqrt.sqrt x = x

/-- The literal `0.0001f`, used as the near-zero threshold throughout. -/
def epsilon (F : Type) [LinearOrderedField F] : F := 1 / 10000

/-! ## Vector2D.h -/

/-- Embeds `struct Vector2D { float x, y; }`. -/
@[ext]
structure Vector2D (F : Type) where
  x : F
  y : F

namespace Vector2D

variable {F : Type} [LinearOrderedField F] [HasSqrt F]

/-- Embeds `operator+`. -/
def add (u v : Vector2D F) : Vector2D F := ⟨u.x + v.x, u.y + v.y⟩

/-- Embeds `operator-`. -/
def sub (u v : Vector2D F) : Vector2D F := ⟨u.x - v.x, u.y - v.y⟩

/-- Embeds `operator*(float scalar)`. -/
def mul (u : Vector2D F) (scalar : F) : Vector2D F := ⟨u.x * scalar, u.y * scalar⟩

/-- Embeds `operator/(float scalar)`. -/
def div (u : Vector2D F) (scalar : F) : Vector2D F := ⟨u.x / scalar, u.y / scalar⟩

/-- Embeds `dot`. -/
def dot (u v : Vector2D F) : F := u.x * v.x + u.y * v.y

/-- Embeds `magnitudeSquared`. -/
def magnitudeSquared (u : Vector2D F) : F := u.x * u.x + u.y * u.y

/-- Embeds `magnitude`. -/
def magnitude (u : Vector2D F) : F := HasSqrt.sqrt (u.x * u.x + u.y * u.y)

/-- Embeds `normalized`: divide by the magnitude when it exceeds `0.0001f`, else the
zero vector. -/
def normalized (u : Vector2D F) : Vector2D F :=
  let mag := u.magnitude
  if mag > epsilon F then u.div mag else ⟨0, 0⟩

/-- Embeds `static distance(a, b)`. -/
def distance (a b : Vector2D F) : F := (a.sub b).magnitude

end Vector2D

/-! ## PhysicsObject.h -/

/-- Embeds `enum class ShapeType`. -/
inductive ShapeType where
  | Circle
  | Box
deriving DecidableEq, Repr

/-- Embeds `enum class IntegrationMethod`. -/
inductive IntegrationMethod where
  | Euler
  | SemiImplicitEuler
  | Verlet
deriving DecidableEq, Repr

/-- Embeds `class PhysicsObject`, all data members. -/
structure PhysicsObject (F : Type) where
  position : Vector2D F
  velocity : Vector2D F
  acceleration : Vector2D F
  previousPosition : Vector2D F
  mass : F
  radius : F
  width : F
  height : F
  restitution : F
  friction : F
  isStatic : Bool
  shape : ShapeType
  colorR : F
  colorG : F
  colorB : F
  label : String
  forceAccumulator : Vector2D F

namespace PhysicsObject

variable {F : Type} [LinearOrderedField F] [HasSqrt F]

/-- The constructor `PhysicsObject(pos, mass, shape)` with its default member
values. -/
def new (pos : Vector2D F) (mass : F) (shape : ShapeType) : PhysicsObject F :=
  { position := pos, velocity := ⟨0, 0⟩, acceleration := ⟨0, 0⟩, previousPosition := pos,
    mass := mass, radius := 20, width := 40, height := 40,
    restitution := 8 / 10, friction := 1 / 10, isStatic := false,
    shape := shape, colorR := 3 / 10, colorG := 7 / 10, colorB := 1,
    label := "", forceAccumulator := ⟨0, 0⟩ }

/-- Embeds `addForce`. -/
def addForce (o : PhysicsObject F) (force : Vector2D F) : PhysicsObject F :=
  { o with forceAccumulator := o.forceAccumulator.add force }

/-- Embeds `clearForces`. -/
def clearForces (o : PhysicsObject F) : PhysicsObject F :=
  { o with forceAccumulator := ⟨0, 0⟩ }

/-- Embeds `getKineticEnergy`. -/
def getKineticEnergy (o : PhysicsObject F) : F :=
  if o.isStatic then 0 else 1 / 2 * o.mass * o.velocity.magnitudeSquared

/-- Embeds `getPotentialEnergy(gravity)`. -/
def getPotentialEnergy (o : PhysicsObject F) (gravity : F) : F :=
  if o.isStatic then 0 else o.mass * gravity * o.position.y

/-- Embeds `getInverseMass`. -/
def getInverseMass (o : PhysicsObject F) : F :=
  if o.isStatic then 0 else 1 / o.mass

end PhysicsObject

/-! ## PhysicsEngine.h / PhysicsEngine.cpp -/

/-- Embeds `class PhysicsEngine`: the object collection, the gravity vector, the
integration method and the public settings. -/
structure PhysicsEngine (F : Type) where
  objects : List (PhysicsObject F)
  gravity : Vector2D F
  integrationMethod : IntegrationMethod
  gravityEnabled : Bool
  collisionsEnabled : Bool
  boundaryEnabled : Bool
  airResistanceCoefficient : F

namespace PhysicsEngine

variable {F : Type} [LinearOrderedField F] [HasSqrt F]

/-- The constructor `PhysicsEngine()` together with the in-class member
initialisers. -/
def new : PhysicsEngine F :=
  { objects := [], gravity := ⟨0, 980⟩,
    integrationMethod := IntegrationMethod.SemiImplicitEuler,
    gravityEnabled := true, collisionsEnabled := true, boundaryEnabled := true,
    airResistanceCoefficient := 1 / 100 }

/-- Embeds `reset`. -/
def reset (e : PhysicsEngine F) : PhysicsEngine F := { e with objects := [] }

/-- Embeds `addObject`. -/
def addObject (e : PhysicsEngine F) (object : PhysicsObject F) : PhysicsEngine F :=
  { e with objects := e.objects ++ [object] }

/-- Embeds `removeObject(index)`: erase the element at `index` when it is in range. -/
def removeObject (e : PhysicsEngine F) (index : Nat) : PhysicsEngine F :=
  if index < e.objects.length then { e with objects := e.objects.eraseIdx index } else e

/-- Embeds `clearObjects`. -/
def clearObjects (e : PhysicsEngine F) : PhysicsEngine F := { e with objects := [] }

/-- Body of the loop of `applyGravity` for one object. -/
def applyGravityTo (gravity : Vector2D F) (obj : PhysicsObject F) : PhysicsObject F :=
  if !obj.isStatic then obj.addForce (gravity.mul obj.mass) else obj

/-- Embeds `applyGravity`. -/
def applyGravity (e : PhysicsEngine F) : PhysicsEngine F :=
  { e with objects := e.objects.map (applyGravityTo e.gravity) }

/-- Body of the loop of `applyFriction` for one object. -/
def applyFrictionTo (obj : PhysicsObject F) : PhysicsObject F :=
  if !obj.isStatic ∧ obj.friction > 0 then
    let frictionForce := obj.velocity.mul (-obj.friction)
    obj.addForce frictionForce
  else obj

/-- Embeds `applyFriction`. -/
def applyFriction (e : PhysicsEngine F) : PhysicsEngine F :=
  { e with objects := e.objects.map applyFrictionTo }

/-- Body of the loop of `applyAirResistance` for one object. -/
def applyAirResistanceTo (coefficient : F) (obj : PhysicsObject F) : PhysicsObject F :=
  if !obj.isStatic ∧ coefficient > 0 then
    let speedSquared := obj.velocity.magnitudeSquared
    if speedSquared > epsilon F then
      let dragDirection := obj.velocity.normalized.mul (-1)
      let dragForce := dragDirection.mul (coefficient * speedSquared)
      obj.addForce dragForce
    else obj
  else obj

/-- Embeds `applyAirResistance(coefficient)`. -/
def applyAirResistance (e : PhysicsEngine F) (coefficient : F) : PhysicsEngine F :=
  { e with objects := e.objects.map (applyAirResistanceTo coefficient) }

/-- Embeds `integrateEuler`. -/
def integrateEuler (obj : PhysicsObject F) (dt : F) : PhysicsObject F :=
  let obj1 := { obj with velocity := obj.velocity.add (obj.acceleration.mul dt) }
  { obj1 with position := obj1.position.add (obj1.velocity.mul dt) }

/-- Embeds `integrateSemiImplicitEuler`. -/
def integrateSemiImplicitEuler (obj : PhysicsObject F) (dt : F) : PhysicsObject F :=
  let obj1 := { obj with velocity := obj.velocity.add (obj.acceleration.mul dt) }
  { obj1 with position := obj1.position.add (obj1.velocity.mul dt) }

/-- Embeds `integrateVerlet`. -/
def integrateVerlet (obj : PhysicsObject F) (dt : F) : PhysicsObject F :=
  let newPosition :=
    ((obj.position.mul 2).sub obj.previousPosition).add (obj.acceleration.mul (dt * dt))
  let obj1 := { obj with previousPosition := obj.position }
  let obj2 := { obj1 with velocity := (newPosition.sub obj1.position).div dt }
  { obj2 with position := newPosition }

/-- Body of the integration loop of `update` for one object: acceleration from
the accumulated force, the selected integrator, then `clearForces`; static
objects are skipped. -/
def integrateObject (method : IntegrationMethod) (dt : F) (obj : PhysicsObject F) :
    PhysicsObject F :=
  if !obj.isStatic then
    let obj1 := { obj with acceleration := obj.forceAccumulator.mul obj.getInverseMass }
    let obj2 :=
      match method with
      | IntegrationMethod.Euler => integrateEuler obj1 dt
      | IntegrationMethod.SemiImplicitEuler => integrateSemiImplicitEuler obj1 dt
      | IntegrationMethod.Verlet => integrateVerlet obj1 dt
    obj2.clearForces
  else obj

/-- Embeds `checkCircleCircleCollision`. -/
def checkCircleCircleCollision (a b : PhysicsObject F) : Bool :=
  let distance := Vector2D.distance a.position b.position
  decide (distance < a.radius + b.radius)

/-- The `// Separate objects` block of `resolveCircleCircleCollision`, given
the collision normal computed on entry; returns the two objects after it. -/
def separateObjects (normal : Vector2D F) (a b : PhysicsObject F) :
    PhysicsObject F × PhysicsObject F :=
  let overlap := (a.radius + b.radius) - Vector2D.distance a.position b.position
  if overlap > 0 then
    let totalInvMass := a.getInverseMass + b.getInverseMass
    if totalInvMass > epsilon F then
      let separation := normal.mul (overlap / totalInvMass)
      (if !a.isStatic then
         { a with position := a.position.sub (separation.mul a.getInverseMass) }
       else a,
       if !b.isStatic then
         { b with position := b.position.add (separation.mul b.getInverseMass) }
       else b)
    else (a, b)
  else (a, b)

/-- The impulse part of `resolveCircleCircleCollision` (from
`// Calculate relative velocity` to the end), given the collision normal;
returns the two objects after it. -/
def applyImpulse (normal : Vector2D F) (a b : PhysicsObject F) :
    PhysicsObject F × PhysicsObject F :=
  let relativeVelocity := b.velocity.sub a.velocity
  let velocityAlongNormal := relativeVelocity.dot normal
  -- Don't resolve if objects are separating
  if velocityAlongNormal > 0 then (a, b)
  else
    -- std::min(a.restitution, b.restitution)
    let e := if b.restitution < a.restitution then b.restitution else a.restitution
    let j := -(1 + e) * velocityAlongNormal / (a.getInverseMass + b.getInverseMass)
    let impulse := normal.mul j
    (if !a.isStatic then { a with velocity := a.velocity.sub (impulse.mul a.getInverseMass) }
     else a,
     if !b.isStatic then { b with velocity := b.velocity.add (impulse.mul b.getInverseMass) }
     else b)

/-- Embeds `resolveCircleCircleCollision(a, b)`; returns the two objects after the
call.  The normal is computed once, from the positions on entry. -/
def resolveCircleCircleCollision (a b : PhysicsObject F) : PhysicsObject F × PhysicsObject F :=
  let normal := (b.position.sub a.position).normalized
  let separated := separateObjects normal a b
  applyImpulse normal separated.1 separated.2

/-- Body of the inner loop of `handleCollisions` for the index pair `(i, j)`:
both shapes must be circles and the circles must overlap; the two resolved
objects are written back in place. -/
def collidePair (objs : List (PhysicsObject F)) (i j : Nat) : List (PhysicsObject F) :=
  match objs[i]?, objs[j]? with
  | some a, some b =>
    if a.shape = ShapeType.Circle ∧ b.shape = ShapeType.Circle then
      if checkCircleCircleCollision a b then
        let r := resolveCircleCircleCollision a b
        (objs.set i r.1).set j r.2
      else objs
    else objs
  | _, _ => objs

/-- The loops of `handleCollisions` over a list of objects: `i` from `0`,
`j` from `i + 1`, both below `objects.size()`. -/
def handleCollisionsList (objs : List (PhysicsObject F)) : List (PhysicsObject F) :=
  (List.range objs.length).foldl
    (fun acc i => (List.range' (i + 1) (objs.length - (i + 1))).foldl
      (fun acc2 j => collidePair acc2 i j) acc)
    objs

/-- Embeds `handleCollisions`. -/
def handleCollisions (e : PhysicsEngine F) : PhysicsEngine F :=
  { e with objects := handleCollisionsList e.objects }

/-- The `// Left boundary` block of `handleBoundaryCollisions`. -/
def clampLeft (obj : PhysicsObject F) : PhysicsObject F :=
  if obj.position.x - obj.radius < 0 then
    { obj with position := ⟨obj.radius, obj.position.y⟩,
               velocity := ⟨obj.velocity.x * -obj.restitution, obj.velocity.y⟩ }
  else obj

/-- The `// Right boundary` block of `handleBoundaryCollisions`. -/
def clampRight (width : F) (obj : PhysicsObject F) : PhysicsObject F :=
  if obj.position.x + obj.radius > width then
    { obj with position := ⟨width - obj.radius, obj.position.y⟩,
               velocity := ⟨obj.velocity.x * -obj.restitution, obj.velocity.y⟩ }
  else obj

/-- The `// Top boundary` block of `handleBoundaryCollisions`. -/
def clampTop (obj : PhysicsObject F) : PhysicsObject F :=
  if obj.position.y - obj.radius < 0 then
    { obj with position := ⟨obj.position.x, obj.radius⟩,
               velocity := ⟨obj.velocity.x, obj.velocity.y * -obj.restitution⟩ }
  else obj

/-- The `// Bottom boundary` block of `handleBoundaryCollisions`, with the
resting friction applied when `|velocity.y| < 10` after the bounce. -/
def clampBottom (height : F) (obj : PhysicsObject F) : PhysicsObject F :=
  if obj.position.y + obj.radius > height then
    let obj1 := { obj with position := ⟨obj.position.x, height - obj.radius⟩,
                           velocity := ⟨obj.velocity.x, obj.velocity.y * -obj.restitution⟩ }
    -- Apply resting friction
    if |obj1.velocity.y| < 10 then
      { obj1 with velocity := ⟨obj1.velocity.x * (19 / 20), obj1.velocity.y⟩ }
    else obj1
  else obj

/-- Body of the loop of `handleBoundaryCollisions` for one object: static
objects and boxes are skipped, a circle runs through the four boundary blocks
in source order. -/
def handleBoundaryCollisionsOf (width height : F) (obj : PhysicsObject F) : PhysicsObject F :=
  if obj.isStatic then obj
  else if obj.shape = ShapeType.Circle then
    clampBottom height (clampTop (clampRight width (clampLeft obj)))
  else obj

/-- Embeds `handleBoundaryCollisions(width, height)`. -/
def handleBoundaryCollisions (e : PhysicsEngine F) (width height : F) : PhysicsEngine F :=
  if !e.boundaryEnabled then e
  else { e with objects := e.objects.map (handleBoundaryCollisionsOf width height) }

/-- Embeds `update(dt)`. -/
def update (e : PhysicsEngine F) (dt : F) : PhysicsEngine F :=
  -- Apply forces
  let e1 := if e.gravityEnabled then e.applyGravity else e
  let e2 := e1.applyFriction
  let e3 := e2.applyAirResistance e2.airResistanceCoefficient
  -- Integrate physics
  let e4 := { e3 with objects := e3.objects.map (integrateObject e3.integrationMethod dt) }
  -- Handle collisions
  if e4.collisionsEnabled then e4.handleCollisions else e4

/-- Embeds `getTotalKineticEnergy`. -/
def getTotalKineticEnergy (e : PhysicsEngine F) : F :=
  e.objects.foldl (fun total obj => total + obj.getKineticEnergy) 0

/-- Embeds `getTotalPotentialEnergy`. -/
def getTotalPotentialEnergy (e : PhysicsEngine F) : F :=
  let g := e.gravity.magnitude
  e.objects.foldl (fun total obj => total + obj.getPotentialEnergy g) 0

/-- Embeds `getTotalEnergy`. -/
def getTotalEnergy (e : PhysicsEngine F) : F :=
  e.getTotalKineticEnergy + e.getTotalPotentialEnergy

end PhysicsEngine

/-! ## Predicates used in the statements -/

/-- Two lists have the same length and are related index by index. -/
def Pointwise {α : Type} (R : α → α → Prop) (l l2 : List α) : Prop :=
  l2.length = l.length ∧ ∀ (k : Nat) (x : α), l[k]? = some x → ∃ x2, l2[k]? = some x2 ∧ R x x2

/-- What collision resolution may change of an object: at most `position` and
`velocity`, and nothing at all when the object is static. -/
def CollisionFrame {F : Type} (o o2 : PhysicsObject F) : Prop :=
  o2 = { o with position := o2.position, velocity := o2.velocity } ∧
  (o.isStatic = true → o2 = o)

/-- What the force-application passes may change of an object: at most
`forceAccumulator`, and nothing at all when the object is static. -/
def ForceFrame {F : Type} (o o2 : PhysicsObject F) : Prop :=
  o2 = { o with forceAccumulator := o2.forceAccumulator } ∧
  (o.isStatic = true → o2 = o)

/-- The object-wise part of `update(dt)`: the force passes in source order
(gravity when enabled, friction, air resistance) followed by the integration
loop body.  Each pass of `update` is a loop over the collection that touches
one object at a time, so their succession acts on every object as this
composition (`update_objects` below proves it). -/
def PhysicsEngine.stepObject {F : Type} [LinearOrderedField F] [HasSqrt F]
    (e : PhysicsEngine F) (dt : F) (obj : PhysicsObject F) : PhysicsObject F :=
  PhysicsEngine.integrateObject e.integrationMethod dt
    (PhysicsEngine.applyAirResistanceTo e.airResistanceCoefficient
      (PhysicsEngine.applyFrictionTo
        (if e.gravityEnabled then PhysicsEngine.applyGravityTo e.gravity obj else obj)))

/-- The quantity `velocityAlongNormal` of `resolveCircleCircleCollision`:
`relativeVelocity.dot(normal)` with `relativeVelocity = b.velocity - a.velocity`. -/
def PhysicsEngine.velocityAlongNormal {F : Type} [LinearOrderedField F]
    (normal : Vector2D F) (a b : PhysicsObject F) : F :=
  (b.velocity.sub a.velocity).dot normal

/-- The divisor of the statement `j /= a.getInverseMass() + b.getInverseMass()`
of `resolveCircleCircleCollision`. -/
def PhysicsEngine.impulseDivisor {F : Type} [LinearOrderedField F]
    (a b : PhysicsObject F) : F :=
  a.getInverseMass + b.getInverseMass

/-! ## Concrete objects used in the examples -/

/-- A non-static circle of radius 20 and mass 1 centred at `pos`, at rest. -/
def ballAt {F : Type} [LinearOrderedField F] (pos : Vector2D F) : PhysicsObject F :=
  PhysicsObject.new pos 1 ShapeType.Circle

/-- A static circle of radius 20 centred at `pos`. -/
def staticBallAt {F : Type} [LinearOrderedField F] (pos : Vector2D F) : PhysicsObject F :=
  { ballAt pos with isStatic := true }

/-- A non-static circle of radius 20 and mass 40000 centred at `pos`, at rest. -/
def heavyBallAt {F : Type} [LinearOrderedField F] (pos : Vector2D F) : PhysicsObject F :=
  { ballAt pos with mass := 40000 }

/-- A body as built by `Application::loadElasticCollisions` (mass 15,
restitution 1, the other members at their constructor defaults; the colours,
which no physics code reads, are left at their defaults too) at `pos` with
velocity `vel`. -/
def elasticBall {F : Type} [LinearOrderedField F] (pos vel : Vector2D F) : PhysicsObject F :=
  { PhysicsObject.new pos 15 ShapeType.Circle with velocity := vel, restitution := 1 }

/-- A non-static circle of mass 1 at `(0, 0)` without friction, moving with
velocity `(0, 1)` (towards larger `y`, the direction of the default gravity). -/
def freeFallBall {F : Type} [LinearOrderedField F] : PhysicsObject F :=
  { ballAt ⟨0, 0⟩ with friction := 0, velocity := ⟨0, 1⟩ }

/-- An engine as constructed by `PhysicsEngine()` holding the given objects. -/
def engineWith {F : Type} [LinearOrderedField F] (objs : List (PhysicsObject F)) :
    PhysicsEngine F :=
  { (PhysicsEngine.new : PhysicsEngine F) with objects := objs }

/-- A default ball at `(0, 0)` moving with velocity `(3, 4)`, speed 5. -/
def movingBall {F : Type} [LinearOrderedField F] : PhysicsObject F :=
  { ballAt ⟨0, 0⟩ with velocity := ⟨3, 4⟩ }

/-- The ball `movingBall` (velocity `(3, 4)`, non-static) holding the force
`(1, 2)` in its accumulator. -/
def loadedMovingBall {F : Type} [LinearOrderedField F] : PhysicsObject F :=
  { movingBall with forceAccumulator := ⟨1, 2⟩ }

/-- An engine as constructed by `PhysicsEngine()` switched to Verlet
integration, with collisions and air resistance switched off, holding the
given objects. -/
def verletEngineWith {F : Type} [LinearOrderedField F] (objs : List (PhysicsObject F)) :
    PhysicsEngine F :=
  { engineWith objs with
    integrationMethod := IntegrationMethod.Verlet, collisionsEnabled := false,
    airResistanceCoefficient := 0 }

/-- An engine as constructed by `PhysicsEngine()` (gravity `(0, 980)`,
SemiImplicitEuler) with air resistance switched off, holding `freeFallBall`
only. -/
def freeFallEngine {F : Type} [LinearOrderedField F] : PhysicsEngine F :=
  { engineWith [freeFallBall] with airResistanceCoefficient := 0 }

/-! ## Theorems -/

section Boundary

variable {F : Type} [LinearOrderedField F]

open PhysicsEngine

theorem clampLeft_frame (o : PhysicsObject F) :
    (clampLeft o).radius = o.radius ∧ (clampLeft o).position.y = o.position.y := by
  unfold clampLeft; split_ifs <;> exact ⟨rfl, rfl⟩

theorem clampRight_frame (W : F) (o : PhysicsObject F) :
    (clampRight W o).radius = o.radius ∧ (clampRight W o).position.y = o.position.y := by
  unfold clampRight; split_ifs <;> exact ⟨rfl, rfl⟩

theorem clampTop_frame (o : PhysicsObject F) :
    (clampTop o).radius = o.radius ∧ (clampTop o).position.x = o.position.x := by
  unfold clampTop; split_ifs <;> exact ⟨rfl, rfl⟩

theorem clampBottom_frame (H : F) (o : PhysicsObject F) :
    (clampBottom H o).radius = o.radius ∧ (clampBottom H o).position.x = o.position.x := by
  unfold clampBottom; simp only []; split_ifs <;> exact ⟨rfl, rfl⟩

theorem clampLeft_lower (o : PhysicsObject F) : o.radius ≤ (clampLeft o).position.x := by
  unfold clampLeft; split_ifs with h
  · exact le_refl _
  · linarith

theorem clampRight_bounds (W : F) (o : PhysicsObject F) (hW : 2 * o.radius ≤ W)
    (h : o.radius ≤ o.position.x) :
    o.radius ≤ (clampRight W o).position.x ∧ (clampRight W o).position.x ≤ W - o.radius := by
  unfold clampRight; split_ifs with h1
  · exact ⟨by simp only []; linarith, le_refl _⟩
  · exact ⟨h, by linarith⟩

theorem clampTop_lower (o : PhysicsObject F) : o.radius ≤ (clampTop o).position.y := by
  unfold clampTop; split_ifs with h
  · exact le_refl _
  · linarith

theorem clampBottom_bounds (H : F) (o : PhysicsObject F) (hH : 2 * o.radius ≤ H)
    (h : o.radius ≤ o.position.y) :
    o.radius ≤ (clampBottom H o).position.y ∧ (clampBottom H o).position.y ≤ H - o.radius := by
  unfold clampBottom; simp only []; split_ifs with h1 h2
  · exact ⟨by simp only []; linarith, le_refl _⟩
  · exact ⟨by simp only []; linarith, le_refl _⟩
  · exact ⟨h, by linarith⟩

theorem handleBoundaryCollisionsOf_radius (W H : F) (o : PhysicsObject F) :
    (handleBoundaryCollisionsOf W H o).radius = o.radius := by
  unfold handleBoundaryCollisionsOf
  split_ifs
  · rfl
  · rw [(clampBottom_frame _ _).1, (clampTop_frame _).1, (clampRight_frame _ _).1,
      (clampLeft_frame _).1]
  · rfl

theorem handleBoundaryCollisionsOf_contained (W H : F) (o : PhysicsObject F)
    (hs : o.isStatic = false) (hc : o.shape = ShapeType.Circle)
    (hW : 2 * o.radius ≤ W) (hH : 2 * o.radius ≤ H) :
    o.radius ≤ (handleBoundaryCollisionsOf W H o).position.x ∧
    (handleBoundaryCollisionsOf W H o).position.x ≤ W - o.radius ∧
    o.radius ≤ (handleBoundaryCollisionsOf W H o).position.y ∧
    (handleBoundaryCollisionsOf W H o).position.y ≤ H - o.radius := by
  unfold handleBoundaryCollisionsOf
  simp only [hs, hc, Bool.false_eq_true, if_false, if_true]
  have rl := (clampLeft_frame o).1
  have rr := (clampRight_frame W (clampLeft o)).1
  have rt := (clampTop_frame (clampRight W (clampLeft o))).1
  have hx := clampRight_bounds W (clampLeft o) (by rw [rl]; exact hW)
    (by rw [rl]; exact clampLeft_lower o)
  have hy := clampBottom_bounds H (clampTop (clampRight W (clampLeft o)))
    (by rw [rt, rr, rl]; exact hH) (by rw [(clampTop_frame _).1]; exact clampTop_lower _)
  rw [rl] at hx
  rw [rt, rr, rl] at hy
  refine ⟨?_, ?_, hy.1, hy.2⟩
  · rw [(clampBottom_frame _ _).2, (clampTop_frame _).2]; exact hx.1
  · rw [(clampBottom_frame _ _).2, (clampTop_frame _).2]; exact hx.2

/-- C2 (amended): with `boundaryEnabled` set and a window at least one diameter
wide and high (`2 * radius ≤ W`, `2 * radius ≤ H`), every non-static Circle
body of the collection lies, after `handleBoundaryCollisions(W, H)`, at the
same index with unchanged radius and satisfies
`radius ≤ position.x ≤ W - radius` and `radius ≤ position.y ≤ H - radius`. -/
theorem boundary_containment (e : PhysicsEngine F) (W H : F) (k : Nat) (o : PhysicsObject F)
    (hb : e.boundaryEnabled = true) (hk : e.objects[k]? = some o)
    (hs : o.isStatic = false) (hc : o.shape = ShapeType.Circle)
    (hW : 2 * o.radius ≤ W) (hH : 2 * o.radius ≤ H) :
    ∃ o2, (e.handleBoundaryCollisions W H).objects[k]? = some o2 ∧
      o2.radius = o.radius ∧
      o2.radius ≤ o2.position.x ∧ o2.position.x ≤ W - o2.radius ∧
      o2.radius ≤ o2.position.y ∧ o2.position.y ≤ H - o2.radius := by
  refine ⟨handleBoundaryCollisionsOf W H o, ?_, handleBoundaryCollisionsOf_radius W H o, ?_⟩
  · simp [handleBoundaryCollisions, hb, List.getElem?_map, hk]
  · rw [handleBoundaryCollisionsOf_radius]
    exact handleBoundaryCollisionsOf_contained W H o hs hc hW hH

/-- Witness for C2: a default ball at `(0, 50)` in a `1280 × 720` window. -/
theorem boundary_containment_witness :
    ∃ o2, ((engineWith [ballAt (⟨0, 50⟩ : Vector2D ℚ)]).handleBoundaryCollisions 1280 720).objects[0]?
        = some o2 ∧
      o2.radius = (ballAt (⟨0, 50⟩ : Vector2D ℚ)).radius ∧
      o2.radius ≤ o2.position.x ∧ o2.position.x ≤ 1280 - o2.radius ∧
      o2.radius ≤ o2.position.y ∧ o2.position.y ≤ 720 - o2.radius :=
  boundary_containment (engineWith [ballAt ⟨0, 50⟩]) 1280 720 0 (ballAt ⟨0, 50⟩)
    rfl rfl rfl rfl (by norm_num [ballAt, PhysicsObject.new])
    (by norm_num [ballAt, PhysicsObject.new])

/-- C2 (as stated) fails: in a window of width 10 a non-static Circle of
radius 20 at `(0, 50)` is first clamped to `x = 20` by the left test and then
to `x = 10 - 20 = -10` by the right test, so `radius ≤ position.x` is false
after `handleBoundaryCollisions(10, 720)`. -/
theorem boundary_containment_counterexample :
    (engineWith [ballAt (⟨0, 50⟩ : Vector2D ℚ)]).boundaryEnabled = true ∧
    (ballAt (⟨0, 50⟩ : Vector2D ℚ)).isStatic = false ∧
    (ballAt (⟨0, 50⟩ : Vector2D ℚ)).shape = ShapeType.Circle ∧
    ∃ o2 : PhysicsObject ℚ,
      ((engineWith [ballAt (⟨0, 50⟩ : Vector2D ℚ)]).handleBoundaryCollisions 10 720).objects[0]?
        = some o2 ∧ o2.radius = 20 ∧ o2.position.x = -10 ∧ ¬ (o2.radius ≤ o2.position.x) := by
  refine ⟨rfl, rfl, rfl, { ballAt (⟨0, 50⟩ : Vector2D ℚ) with position := ⟨-10, 50⟩ }, ?_, ?_, rfl, ?_⟩
  · norm_num [engineWith, ballAt, PhysicsObject.new, PhysicsEngine.new, handleBoundaryCollisions,
      handleBoundaryCollisionsOf, clampLeft, clampRight, clampTop, clampBottom]
  · norm_num [ballAt, PhysicsObject.new]
  · norm_num [ballAt, PhysicsObject.new]

end Boundary

section Basics

variable {F : Type} [LinearOrderedField F]

open PhysicsEngine

theorem epsilon_pos : (0 : F) < epsilon F := by
  unfold epsilon; positivity

end Basics

/-- C9: `removeObject(index)` leaves the engine unchanged when
`index ≥ size`; when `index < size` it changes nothing but the collection,
whose length drops by one, whose elements before `index` stay where they are
and whose elements from `index` on are the old elements one position later. -/
theorem removeObject_spec {F : Type} (e : PhysicsEngine F) (index : Nat) :
    (e.objects.length ≤ index → e.removeObject index = e) ∧
    (index < e.objects.length →
      e.removeObject index = { e with objects := (e.removeObject index).objects } ∧
      (e.removeObject index).objects.length + 1 = e.objects.length ∧
      (∀ k, k < index → (e.removeObject index).objects[k]? = e.objects[k]?) ∧
      (∀ k, index ≤ k → (e.removeObject index).objects[k]? = e.objects[k + 1]?)) := by
  constructor
  · intro h
    simp [PhysicsEngine.removeObject, Nat.not_lt.mpr h]
  · intro h
    have hr : e.removeObject index = { e with objects := e.objects.eraseIdx index } := by
      simp [PhysicsEngine.removeObject, h]
    rw [hr]
    refine ⟨rfl, ?_, ?_, ?_⟩
    · rw [List.length_eraseIdx, if_pos h]; omega
    · intro k hk
      rw [List.getElem?_eraseIdx, if_pos hk]
    · intro k hk
      rw [List.getElem?_eraseIdx, if_neg (by omega)]

section Normalization

variable {F : Type} [LinearOrderedField F] [HasSqrt F]

/-- C6: `normalized()` returns `(0,0)` when `magnitude(v) ≤ 1e-4`, and
`v / magnitude(v)` otherwise, in which case the divisor `magnitude(v)` is
non-zero (so no division by zero is ever performed); in particular
`Vector2D(0,0).normalized()` is `(0,0)`. -/
theorem normalized_safe (v : Vector2D F) :
    (v.magnitude ≤ epsilon F → v.normalized = ⟨0, 0⟩) ∧
    (¬ v.magnitude ≤ epsilon F → v.magnitude ≠ 0 ∧ v.normalized = v.div v.magnitude) ∧
    Vector2D.normalized (⟨0, 0⟩ : Vector2D F) = ⟨0, 0⟩ := by
  refine ⟨?_, ?_, ?_⟩
  · intro h
    simp [Vector2D.normalized, not_lt.mpr h]
  · intro h
    have hpos : epsilon F < v.magnitude := not_le.mp h
    refine ⟨ne_of_gt (lt_trans epsilon_pos hpos), ?_⟩
    simp [Vector2D.normalized, hpos]
  · simp only [Vector2D.normalized]
    split_ifs
    · simp [Vector2D.div]
    · rfl

end Normalization

section Frames

variable {α : Type} {R : α → α → Prop}

theorem pointwise_refl (hR : ∀ x, R x x) (l : List α) : Pointwise R l l :=
  ⟨rfl, fun _ x hx => ⟨x, hx, hR x⟩⟩

theorem pointwise_trans (hR : ∀ x y z, R x y → R y z → R x z) {l l2 l3 : List α}
    (h1 : Pointwise R l l2) (h2 : Pointwise R l2 l3) : Pointwise R l l3 := by
  refine ⟨h2.1.trans h1.1, fun k x hx => ?_⟩
  obtain ⟨y, hy, hxy⟩ := h1.2 k x hx
  obtain ⟨z, hz, hyz⟩ := h2.2 k y hy
  exact ⟨z, hz, hR x y z hxy hyz⟩

theorem pointwise_set (hR : ∀ x, R x x) (l : List α) (i : Nat) (a a2 : α)
    (hi : l[i]? = some a) (ha : R a a2) : Pointwise R l (l.set i a2) := by
  refine ⟨List.length_set .., fun k x hx => ?_⟩
  rw [List.getElem?_set]
  by_cases hik : i = k
  · subst hik
    have hlt : i < l.length := by
      rcases Nat.lt_or_ge i l.length with h | h
      · exact h
      · rw [List.getElem?_eq_none h] at hi; cases hi
    rw [if_pos rfl, if_pos hlt]
    rw [hi] at hx
    cases hx
    exact ⟨a2, rfl, ha⟩
  · rw [if_neg hik]
    exact ⟨x, hx, hR x⟩

theorem pointwise_map (f : α → α) (hf : ∀ x, R x (f x)) (l : List α) :
    Pointwise R l (l.map f) := by
  refine ⟨List.length_map .., fun k x hx => ⟨f x, ?_, hf x⟩⟩
  rw [List.getElem?_map, hx]; rfl

theorem pointwise_foldl {β : Type} (hR : ∀ x, R x x) (hT : ∀ x y z, R x y → R y z → R x z)
    (f : List α → β → List α) (hf : ∀ acc b, Pointwise R acc (f acc b)) (xs : List β)
    (init : List α) : Pointwise R init (xs.foldl f init) := by
  induction xs generalizing init with
  | nil => exact pointwise_refl hR init
  | cons b bs ih =>
    rw [List.foldl_cons]
    exact pointwise_trans hT (hf init b) (ih (f init b))

end Frames

theorem collisionFrame_refl {F : Type} (o : PhysicsObject F) : CollisionFrame o o :=
  ⟨rfl, fun _ => rfl⟩

theorem collisionFrame_trans {F : Type} (o o2 o3 : PhysicsObject F) (h1 : CollisionFrame o o2)
    (h2 : CollisionFrame o2 o3) : CollisionFrame o o3 := by
  refine ⟨?_, fun hs => ?_⟩
  · rw [h2.1, h1.1]
  · have h := h1.2 hs
    rw [h2.2 (by rw [h]; exact hs), h]

theorem forceFrame_refl {F : Type} (o : PhysicsObject F) : ForceFrame o o :=
  ⟨rfl, fun _ => rfl⟩

theorem forceFrame_trans {F : Type} (o o2 o3 : PhysicsObject F) (h1 : ForceFrame o o2)
    (h2 : ForceFrame o2 o3) : ForceFrame o o3 := by
  refine ⟨?_, fun hs => ?_⟩
  · rw [h2.1, h1.1]
  · have h := h1.2 hs
    rw [h2.2 (by rw [h]; exact hs), h]

theorem applyImpulse_frame {F : Type} [LinearOrderedField F] (n : Vector2D F) (a b : PhysicsObject F) :
    CollisionFrame a (PhysicsEngine.applyImpulse n a b).1 ∧ CollisionFrame b (PhysicsEngine.applyImpulse n a b).2 := by
  unfold PhysicsEngine.applyImpulse
  simp only []
  split_ifs <;> constructor <;>
    first
      | exact collisionFrame_refl _
      | (constructor
         · rfl
         · intro hs; simp_all)

theorem applyGravityTo_frame {F : Type} [LinearOrderedField F] (g : Vector2D F) (o : PhysicsObject F) :
    ForceFrame o (PhysicsEngine.applyGravityTo g o) := by
  unfold PhysicsEngine.applyGravityTo PhysicsObject.addForce
  split_ifs with h
  · exact ⟨rfl, fun hs => by simp [hs] at h⟩
  · exact forceFrame_refl o

theorem applyFrictionTo_frame {F : Type} [LinearOrderedField F] (o : PhysicsObject F) : ForceFrame o (PhysicsEngine.applyFrictionTo o) := by
  unfold PhysicsEngine.applyFrictionTo PhysicsObject.addForce
  split_ifs with h
  · exact ⟨rfl, fun hs => by simp [hs] at h⟩
  · exact forceFrame_refl o

theorem integrateObject_nonstatic {F : Type} [LinearOrderedField F] (m : IntegrationMethod) (dt : F) (o : PhysicsObject F)
    (hs : o.isStatic = false) :
    (PhysicsEngine.integrateObject m dt o).forceAccumulator = ⟨0, 0⟩ ∧
    (PhysicsEngine.integrateObject m dt o).isStatic = false ∧
    (m = IntegrationMethod.Verlet → (PhysicsEngine.integrateObject m dt o).previousPosition = o.position) ∧
    (m ≠ IntegrationMethod.Verlet →
      (PhysicsEngine.integrateObject m dt o).previousPosition = o.previousPosition) := by
  cases m <;>
    simp [PhysicsEngine.integrateObject, hs, PhysicsEngine.integrateEuler,
      PhysicsEngine.integrateSemiImplicitEuler, PhysicsEngine.integrateVerlet,
      PhysicsObject.clearForces]

section EngineFrames

variable {F : Type} [LinearOrderedField F] [HasSqrt F]

open PhysicsEngine

theorem separateObjects_frame (n : Vector2D F) (a b : PhysicsObject F) :
    CollisionFrame a (separateObjects n a b).1 ∧ CollisionFrame b (separateObjects n a b).2 := by
  unfold separateObjects
  simp only []
  split_ifs <;> constructor <;>
    first
      | exact collisionFrame_refl _
      | (constructor
         · rfl
         · intro hs; simp_all)

theorem resolveCircleCircleCollision_frame (a b : PhysicsObject F) :
    CollisionFrame a (resolveCircleCircleCollision a b).1 ∧
    CollisionFrame b (resolveCircleCircleCollision a b).2 := by
  unfold resolveCircleCircleCollision
  simp only []
  have h1 := separateObjects_frame ((b.position.sub a.position).normalized) a b
  have h2 := applyImpulse_frame ((b.position.sub a.position).normalized)
    (separateObjects ((b.position.sub a.position).normalized) a b).1
    (separateObjects ((b.position.sub a.position).normalized) a b).2
  exact ⟨collisionFrame_trans _ _ _ h1.1 h2.1, collisionFrame_trans _ _ _ h1.2 h2.2⟩

theorem getElem?_lt {α : Type} (l : List α) (i : Nat) (a : α) (hi : l[i]? = some a) :
    i < l.length := by
  rcases Nat.lt_or_ge i l.length with h | h
  · exact h
  · rw [List.getElem?_eq_none h] at hi; cases hi

theorem collidePair_frame (objs : List (PhysicsObject F)) (i j : Nat) :
    Pointwise CollisionFrame objs (collidePair objs i j) := by
  unfold collidePair
  split
  · rename_i a b hi hj
    split_ifs with hc hk
    · have hr := resolveCircleCircleCollision_frame a b
      by_cases hij : i = j
      · subst hij
        rw [List.set_set]
        rw [hi] at hj
        cases hj
        exact pointwise_set collisionFrame_refl objs i a _ hi hr.2
      · have h1 : Pointwise CollisionFrame objs (objs.set i (resolveCircleCircleCollision a b).1) :=
          pointwise_set collisionFrame_refl objs i a _ hi hr.1
        have hb2 : (objs.set i (resolveCircleCircleCollision a b).1)[j]? = some b := by
          rw [List.getElem?_set_ne hij]; exact hj
        exact pointwise_trans collisionFrame_trans h1
          (pointwise_set collisionFrame_refl _ j b _ hb2 hr.2)
    · exact pointwise_refl collisionFrame_refl objs
    · exact pointwise_refl collisionFrame_refl objs
  · exact pointwise_refl collisionFrame_refl objs

theorem handleCollisionsList_frame (objs : List (PhysicsObject F)) :
    Pointwise CollisionFrame objs (handleCollisionsList objs) := by
  unfold handleCollisionsList
  apply pointwise_foldl collisionFrame_refl collisionFrame_trans
  intro acc i
  apply pointwise_foldl collisionFrame_refl collisionFrame_trans
  intro acc2 j
  exact collidePair_frame acc2 i j

theorem applyAirResistanceTo_frame (c : F) (o : PhysicsObject F) :
    ForceFrame o (applyAirResistanceTo c o) := by
  unfold applyAirResistanceTo PhysicsObject.addForce
  simp only []
  split_ifs with h h2
  · exact ⟨rfl, fun hs => by simp [hs] at h⟩
  · exact forceFrame_refl o
  · exact forceFrame_refl o

/-- The force passes of `update` taken together change at most the force
accumulator of an object, and nothing of a static one. -/
theorem forces_frame (e : PhysicsEngine F) (o : PhysicsObject F) :
    ForceFrame o (applyAirResistanceTo e.airResistanceCoefficient
      (applyFrictionTo (if e.gravityEnabled then applyGravityTo e.gravity o else o))) := by
  have h1 : ForceFrame o (if e.gravityEnabled then applyGravityTo e.gravity o else o) := by
    split_ifs
    · exact applyGravityTo_frame _ _
    · exact forceFrame_refl o
  exact forceFrame_trans _ _ _ (forceFrame_trans _ _ _ h1 (applyFrictionTo_frame _))
    (applyAirResistanceTo_frame _ _)

/-- The passes of `update(dt)` act object by object: the collection after
`update` is the collision pass (when enabled) applied to the collection of
stepped objects. -/
theorem update_objects (e : PhysicsEngine F) (dt : F) :
    (e.update dt).objects =
      if e.collisionsEnabled then handleCollisionsList (e.objects.map (e.stepObject dt))
      else e.objects.map (e.stepObject dt) := by
  have hstep : e.stepObject dt = fun obj => integrateObject e.integrationMethod dt
      (applyAirResistanceTo e.airResistanceCoefficient
        (applyFrictionTo (if e.gravityEnabled then applyGravityTo e.gravity obj else obj))) := rfl
  rw [hstep]
  unfold update
  cases hg : e.gravityEnabled <;> cases hc : e.collisionsEnabled <;>
    simp [applyGravity, applyFriction, applyAirResistance, handleCollisions, List.map_map,
      Function.comp_def, hg, hc]

/-- After `update(dt)` every index holds an object that differs from the
stepped old object at most by what collision resolution may change. -/
theorem update_pointwise (e : PhysicsEngine F) (dt : F) (k : Nat) (o : PhysicsObject F)
    (hk : e.objects[k]? = some o) :
    ∃ o2, (e.update dt).objects[k]? = some o2 ∧ CollisionFrame (e.stepObject dt o) o2 := by
  have hm : (e.objects.map (e.stepObject dt))[k]? = some (e.stepObject dt o) := by
    rw [List.getElem?_map, hk]; rfl
  rw [update_objects]
  split_ifs
  · exact (handleCollisionsList_frame _).2 k _ hm
  · exact ⟨_, hm, collisionFrame_refl _⟩

theorem stepObject_static (e : PhysicsEngine F) (dt : F) (o : PhysicsObject F)
    (hs : o.isStatic = true) : e.stepObject dt o = o := by
  unfold stepObject
  have h := (forces_frame e o).2 hs
  rw [h]
  simp [integrateObject, hs]

end EngineFrames

section UpdateClaims

variable {F : Type} [LinearOrderedField F] [HasSqrt F]

open PhysicsEngine

/-- C1: for every engine state and every `dt`, a body of the collection with
`isStatic = true` is found at the same index after `update(dt)` with its
position and velocity unchanged (whatever its force accumulator holds and
whatever overlaps it), and `getInverseMass()` of a static body is exactly 0. -/
theorem static_body_invariance (e : PhysicsEngine F) (dt : F) (k : Nat) (o : PhysicsObject F)
    (hk : e.objects[k]? = some o) (hs : o.isStatic = true) :
    ∃ o2, (e.update dt).objects[k]? = some o2 ∧
      o2.position = o.position ∧ o2.velocity = o.velocity ∧
      o.getInverseMass = 0 ∧ o2.getInverseMass = 0 := by
  obtain ⟨o2, h2, hf⟩ := update_pointwise e dt k o hk
  rw [stepObject_static e dt o hs] at hf
  have h := hf.2 hs
  subst h
  exact ⟨o2, h2, rfl, rfl, by simp [PhysicsObject.getInverseMass, hs],
    by simp [PhysicsObject.getInverseMass, hs]⟩

/-- C7 (amended): for every `dt` and every non-static body of the collection,
after `update(dt)` the body's `previousPosition` equals the position it had
immediately before the call when the integration method is Verlet, and is
left unchanged by the call when the method is Euler or SemiImplicitEuler. -/
theorem previousPosition_after_update (e : PhysicsEngine F) (dt : F) (k : Nat)
    (o : PhysicsObject F) (hk : e.objects[k]? = some o) (hs : o.isStatic = false) :
    ∃ o2, (e.update dt).objects[k]? = some o2 ∧
      (e.integrationMethod = IntegrationMethod.Verlet → o2.previousPosition = o.position) ∧
      (e.integrationMethod ≠ IntegrationMethod.Verlet →
        o2.previousPosition = o.previousPosition) := by
  obtain ⟨o2, h2, hf⟩ := update_pointwise e dt k o hk
  refine ⟨o2, h2, ?_⟩
  have hff := forces_frame e o
  have hp2 : o2.previousPosition = (e.stepObject dt o).previousPosition := by
    have h := congrArg PhysicsObject.previousPosition hf.1
    exact h
  have hpos := congrArg PhysicsObject.position hff.1
  have hprev := congrArg PhysicsObject.previousPosition hff.1
  have hst := congrArg PhysicsObject.isStatic hff.1
  simp only [] at hpos hprev hst
  have hi := integrateObject_nonstatic e.integrationMethod dt _ (hst.trans hs)
  rw [hp2]
  unfold stepObject
  refine ⟨fun hm => ?_, fun hm => ?_⟩
  · rw [hi.2.2.1 hm, hpos]
  · rw [hi.2.2.2 hm, hprev]

/-- C8: from the same starting state, `update(dt)` with integration method
Euler and `update(dt)` with integration method SemiImplicitEuler produce the
same collection of bodies (every field of every body). -/
theorem euler_eq_semiImplicitEuler (e : PhysicsEngine F) (dt : F) :
    ({ e with integrationMethod := IntegrationMethod.Euler }.update dt).objects =
    ({ e with integrationMethod := IntegrationMethod.SemiImplicitEuler }.update dt).objects := by
  have hstep : ({ e with integrationMethod := IntegrationMethod.Euler }).stepObject dt =
      ({ e with integrationMethod := IntegrationMethod.SemiImplicitEuler }).stepObject dt := by
    funext obj
    simp only [stepObject, integrateObject, integrateEuler, integrateSemiImplicitEuler]
  rw [update_objects, update_objects, hstep]

/-- C10 (amended): for every engine state and `dt`, after `update(dt)` the
force accumulator of every non-static body of the collection is `(0,0)`,
whatever it held before; the force accumulator of a static body is left as it
was before the call. -/
theorem forceAccumulator_after_update (e : PhysicsEngine F) (dt : F) (k : Nat)
    (o : PhysicsObject F) (hk : e.objects[k]? = some o) :
    ∃ o2, (e.update dt).objects[k]? = some o2 ∧
      (o.isStatic = false → o2.forceAccumulator = ⟨0, 0⟩) ∧
      (o.isStatic = true → o2.forceAccumulator = o.forceAccumulator) := by
  obtain ⟨o2, h2, hf⟩ := update_pointwise e dt k o hk
  refine ⟨o2, h2, fun hs => ?_, fun hs => ?_⟩
  · have hff := forces_frame e o
    have hst := congrArg PhysicsObject.isStatic hff.1
    simp only [] at hst
    have hi := integrateObject_nonstatic e.integrationMethod dt _ (hst.trans hs)
    have hfa : o2.forceAccumulator = (e.stepObject dt o).forceAccumulator := by
      have h := congrArg PhysicsObject.forceAccumulator hf.1
      exact h
    rw [hfa]
    exact hi.1
  · rw [stepObject_static e dt o hs] at hf
    rw [hf.2 hs]

end UpdateClaims

section UpdateExamples

open PhysicsEngine

theorem real_sqrtSpec : @SqrtSpec ℝ _ ⟨Real.sqrt⟩ :=
  fun x hx => ⟨Real.sqrt_nonneg x, Real.mul_self_sqrt hx⟩

theorem handleCollisionsList_singleton {F : Type} [LinearOrderedField F] [HasSqrt F]
    (o : PhysicsObject F) : handleCollisionsList [o] = [o] := rfl

/-- Witness for C1: a static ball carrying a force `(5, 5)` and overlapped by
a moving ball, in a default engine stepped by `dt = 1`. -/
theorem static_body_invariance_witness :
    ∃ o2, (@update ℝ _ ⟨Real.sqrt⟩
        (engineWith [(staticBallAt ⟨0, 0⟩).addForce ⟨5, 5⟩, ballAt ⟨10, 0⟩]) 1).objects[0]?
          = some o2 ∧
      o2.position = ((staticBallAt (⟨0, 0⟩ : Vector2D ℝ)).addForce ⟨5, 5⟩).position ∧
      o2.velocity = ((staticBallAt (⟨0, 0⟩ : Vector2D ℝ)).addForce ⟨5, 5⟩).velocity ∧
      ((staticBallAt (⟨0, 0⟩ : Vector2D ℝ)).addForce ⟨5, 5⟩).getInverseMass = 0 ∧
      o2.getInverseMass = 0 :=
  @static_body_invariance ℝ _ ⟨Real.sqrt⟩
    (engineWith [(staticBallAt ⟨0, 0⟩).addForce ⟨5, 5⟩, ballAt ⟨10, 0⟩]) 1 0
    ((staticBallAt ⟨0, 0⟩).addForce ⟨5, 5⟩) rfl rfl

/-- Witness for C7 (amended): a default ball in a default engine. -/
theorem previousPosition_after_update_witness :
    ∃ o2, (@update ℝ _ ⟨Real.sqrt⟩ (engineWith [ballAt ⟨3, 4⟩]) 1).objects[0]? = some o2 ∧
      ((engineWith [ballAt (⟨3, 4⟩ : Vector2D ℝ)]).integrationMethod = IntegrationMethod.Verlet →
        o2.previousPosition = (ballAt (⟨3, 4⟩ : Vector2D ℝ)).position) ∧
      ((engineWith [ballAt (⟨3, 4⟩ : Vector2D ℝ)]).integrationMethod ≠ IntegrationMethod.Verlet →
        o2.previousPosition = (ballAt (⟨3, 4⟩ : Vector2D ℝ)).previousPosition) :=
  @previousPosition_after_update ℝ _ ⟨Real.sqrt⟩ (engineWith [ballAt ⟨3, 4⟩]) 1 0
    (ballAt ⟨3, 4⟩) rfl rfl

/-- Witness for C10 (amended): a default ball in a default engine. -/
theorem forceAccumulator_after_update_witness :
    ∃ o2, (@update ℝ _ ⟨Real.sqrt⟩ (engineWith [ballAt ⟨3, 4⟩]) 1).objects[0]? = some o2 ∧
      ((ballAt (⟨3, 4⟩ : Vector2D ℝ)).isStatic = false → o2.forceAccumulator = ⟨0, 0⟩) ∧
      ((ballAt (⟨3, 4⟩ : Vector2D ℝ)).isStatic = true →
        o2.forceAccumulator = (ballAt (⟨3, 4⟩ : Vector2D ℝ)).forceAccumulator) :=
  @forceAccumulator_after_update ℝ _ ⟨Real.sqrt⟩ (engineWith [ballAt ⟨3, 4⟩]) 1 0
    (ballAt ⟨3, 4⟩) rfl

/-- C10 (as stated) fails: a static body to which `addForce((1, 0))` was
applied before the call still holds `(1, 0)` in its force accumulator after
`update(1)`, because `clearForces` is only reached for non-static bodies. -/
theorem forceAccumulator_counterexample :
    ∃ o2 : PhysicsObject ℝ,
      (@update ℝ _ ⟨Real.sqrt⟩
        (engineWith [(staticBallAt ⟨0, 0⟩).addForce ⟨1, 0⟩]) 1).objects[0]? = some o2 ∧
      o2.forceAccumulator = ⟨1, 0⟩ ∧ o2.forceAccumulator ≠ ⟨0, 0⟩ := by
  refine ⟨(staticBallAt ⟨0, 0⟩).addForce ⟨1, 0⟩, ?_, ?_, ?_⟩
  · letI : HasSqrt ℝ := ⟨Real.sqrt⟩
    rw [@update_objects ℝ _ ⟨Real.sqrt⟩]
    simp [engineWith, PhysicsEngine.new, handleCollisionsList_singleton, stepObject,
      staticBallAt, ballAt, PhysicsObject.new, PhysicsObject.addForce, applyGravityTo,
      applyFrictionTo, applyAirResistanceTo, integrateObject]
  · simp [staticBallAt, ballAt, PhysicsObject.new, PhysicsObject.addForce, Vector2D.add]
  · simp [staticBallAt, ballAt, PhysicsObject.new, PhysicsObject.addForce, Vector2D.add]

theorem update_settings {F : Type} [LinearOrderedField F] [HasSqrt F] (e : PhysicsEngine F)
    (dt : F) : e.update dt = { e with objects := (e.update dt).objects } := by
  obtain ⟨objs, g, m, ge, ce, be, c⟩ := e
  cases ge <;> cases ce <;> rfl

/-- C7 (as stated) fails under SemiImplicitEuler (the method the constructor
selects): a default ball created at `(0, 0)` in an engine without air
resistance is at `(0, 980)` after a first `update(1)`; after a second
`update(1)` its `previousPosition` is still `(0, 0)`, not the position
`(0, 980)` it had immediately before that call. -/
theorem previousPosition_counterexample :
    ∃ o1 o2 : PhysicsObject ℝ,
      (@update ℝ _ ⟨Real.sqrt⟩
        { engineWith [ballAt ⟨0, 0⟩] with airResistanceCoefficient := 0 } 1).objects[0]?
          = some o1 ∧
      (@update ℝ _ ⟨Real.sqrt⟩ (@update ℝ _ ⟨Real.sqrt⟩
        { engineWith [ballAt ⟨0, 0⟩] with airResistanceCoefficient := 0 } 1) 1).objects[0]?
          = some o2 ∧
      (@update ℝ _ ⟨Real.sqrt⟩
        { engineWith [ballAt ⟨0, 0⟩] with airResistanceCoefficient := 0 } 1).integrationMethod
          = IntegrationMethod.SemiImplicitEuler ∧
      o1.isStatic = false ∧ o1.position = ⟨0, 980⟩ ∧
      o2.previousPosition = ⟨0, 0⟩ ∧ o2.previousPosition ≠ o1.position := by
  letI : HasSqrt ℝ := ⟨Real.sqrt⟩
  have h1 : (@update ℝ _ ⟨Real.sqrt⟩
      { engineWith [ballAt ⟨0, 0⟩] with airResistanceCoefficient := 0 } 1).objects =
      [{ ballAt (⟨0, 0⟩ : Vector2D ℝ) with
          position := ⟨0, 980⟩, velocity := ⟨0, 980⟩, acceleration := ⟨0, 980⟩ }] := by
    rw [@update_objects ℝ _ ⟨Real.sqrt⟩]
    simp [engineWith, PhysicsEngine.new, handleCollisionsList_singleton, stepObject,
      ballAt, PhysicsObject.new, PhysicsObject.addForce, applyGravityTo,
      applyFrictionTo, applyAirResistanceTo, integrateObject, integrateSemiImplicitEuler,
      PhysicsObject.clearForces, PhysicsObject.getInverseMass, Vector2D.add, Vector2D.mul]
  have hE := @update_settings ℝ _ ⟨Real.sqrt⟩
    { engineWith [ballAt ⟨0, 0⟩] with airResistanceCoefficient := 0 } 1
  rw [h1] at hE
  refine ⟨{ ballAt (⟨0, 0⟩ : Vector2D ℝ) with
      position := ⟨0, 980⟩, velocity := ⟨0, 980⟩, acceleration := ⟨0, 980⟩ },
    { ballAt (⟨0, 0⟩ : Vector2D ℝ) with
      position := ⟨0, 2842⟩, velocity := ⟨0, 1862⟩, acceleration := ⟨0, 882⟩ }, ?_, ?_, ?_, ?_, ?_,
      ?_, ?_⟩
  · rw [h1]; rfl
  · rw [hE, @update_objects ℝ _ ⟨Real.sqrt⟩]
    simp [engineWith, PhysicsEngine.new, handleCollisionsList_singleton, stepObject,
      ballAt, PhysicsObject.new, PhysicsObject.addForce, applyGravityTo,
      applyFrictionTo, applyAirResistanceTo, integrateObject, integrateSemiImplicitEuler,
      PhysicsObject.clearForces, PhysicsObject.getInverseMass, Vector2D.add, Vector2D.mul]
    norm_num
  · rw [hE]; rfl
  · rfl
  · rfl
  · rfl
  · simp [ballAt, PhysicsObject.new]

end UpdateExamples

theorem applyImpulse_position {F : Type} [LinearOrderedField F] (n : Vector2D F) (a b : PhysicsObject F) :
    (PhysicsEngine.applyImpulse n a b).1.position = a.position ∧
    (PhysicsEngine.applyImpulse n a b).2.position = b.position := by
  unfold PhysicsEngine.applyImpulse
  simp only []
  split_ifs <;> exact ⟨rfl, rfl⟩

/-- The scalar identity behind energy conservation: with unit normal, inverse
masses `ia`, `ib` and an impulse `j` satisfying `j * (ia + ib) = -2 * vn`. -/
theorem elastic_energy_identity {F : Type} [LinearOrderedField F] (ma mb ia ib nx ny ax ay bx cy j : F)
    (e1 : ma * ia = 1) (e2 : mb * ib = 1) (hn : nx * nx + ny * ny = 1)
    (hj : j * (ia + ib) = -2 * ((bx - ax) * nx + (cy - ay) * ny)) :
    1 / 2 * ma * ((ax - nx * j * ia) * (ax - nx * j * ia) + (ay - ny * j * ia) * (ay - ny * j * ia))
      + 1 / 2 * mb * ((bx + nx * j * ib) * (bx + nx * j * ib)
          + (cy + ny * j * ib) * (cy + ny * j * ib))
      = 1 / 2 * ma * (ax * ax + ay * ay) + 1 / 2 * mb * (bx * bx + cy * cy) := by
  linear_combination
    (-j * (ax * nx + ay * ny) + 1 / 2 * j * j * ia * (nx * nx + ny * ny)) * e1
    + (j * (bx * nx + cy * ny) + 1 / 2 * j * j * ib * (nx * nx + ny * ny)) * e2
    + (1 / 2 * j * (nx * nx + ny * ny)) * hj
    + (-j * ((bx - ax) * nx + (cy - ay) * ny)) * hn

section CollisionAlgebra

variable {F : Type} [LinearOrderedField F] [HasSqrt F]

open PhysicsEngine

theorem sqrt_mul_self (hsq : SqrtSpec F) (x : F) (hx : 0 ≤ x) : HasSqrt.sqrt (x * x) = x := by
  obtain ⟨h0, h1⟩ := hsq (x * x) (mul_self_nonneg x)
  exact (mul_self_inj_of_nonneg h0 hx).mp h1

theorem magnitude_mul_self (hsq : SqrtSpec F) (v : Vector2D F) :
    v.magnitude * v.magnitude = v.x * v.x + v.y * v.y :=
  (hsq _ (add_nonneg (mul_self_nonneg v.x) (mul_self_nonneg v.y))).2

theorem magnitude_nonneg (hsq : SqrtSpec F) (v : Vector2D F) : 0 ≤ v.magnitude :=
  (hsq _ (add_nonneg (mul_self_nonneg v.x) (mul_self_nonneg v.y))).1

theorem distance_comm (a b : Vector2D F) : Vector2D.distance a b = Vector2D.distance b a := by
  unfold Vector2D.distance Vector2D.magnitude Vector2D.sub
  congr 1
  ring

theorem distance_eq_magnitude (a b : Vector2D F) :
    Vector2D.distance a b = (b.sub a).magnitude := by
  rw [distance_comm]; rfl

/-- Above the threshold the normal is a unit vector and the centre difference is
the normal scaled by the distance. -/
theorem normalized_unit (hsq : SqrtSpec F) (v : Vector2D F) (h : epsilon F < v.magnitude) :
    v.normalized.x * v.normalized.x + v.normalized.y * v.normalized.y = 1 ∧
    v.normalized.x * v.magnitude = v.x ∧ v.normalized.y * v.magnitude = v.y := by
  have hpos : 0 < v.magnitude := lt_trans epsilon_pos h
  have hne : v.magnitude ≠ 0 := ne_of_gt hpos
  have hm := magnitude_mul_self hsq v
  have hn : v.normalized = v.div v.magnitude := by
    simp [Vector2D.normalized, h]
  rw [hn]
  simp only [Vector2D.div]
  refine ⟨?_, ?_, ?_⟩
  · field_simp
    linear_combination -hm
  · field_simp
  · field_simp

theorem separateObjects_positions (n : Vector2D F) (a b : PhysicsObject F)
    (has : a.isStatic = false) (hbs : b.isStatic = false)
    (hov : Vector2D.distance a.position b.position < a.radius + b.radius)
    (hT : epsilon F < a.getInverseMass + b.getInverseMass) :
    (separateObjects n a b).1.position =
      a.position.sub ((n.mul ((a.radius + b.radius - Vector2D.distance a.position b.position) /
        (a.getInverseMass + b.getInverseMass))).mul a.getInverseMass) ∧
    (separateObjects n a b).2.position =
      b.position.add ((n.mul ((a.radius + b.radius - Vector2D.distance a.position b.position) /
        (a.getInverseMass + b.getInverseMass))).mul b.getInverseMass) := by
  have hpos : a.radius + b.radius - Vector2D.distance a.position b.position > 0 := by
    simp only [gt_iff_lt, sub_pos]; exact hov
  unfold separateObjects
  simp only []
  rw [if_pos hpos, if_pos hT]
  simp [has, hbs]

/-- After resolution of an overlapping, movable pair whose centres are more than
the threshold apart, the centres are exactly the sum of the radii apart. -/
theorem resolve_distance_eq (hsq : SqrtSpec F) (a b : PhysicsObject F)
    (has : a.isStatic = false) (hbs : b.isStatic = false)
    (hov : Vector2D.distance a.position b.position < a.radius + b.radius)
    (hd : epsilon F < Vector2D.distance a.position b.position)
    (hT : epsilon F < a.getInverseMass + b.getInverseMass) :
    Vector2D.distance (resolveCircleCircleCollision a b).1.position
      (resolveCircleCircleCollision a b).2.position = a.radius + b.radius := by
  have hd2 : epsilon F < (b.position.sub a.position).magnitude := by
    rw [← distance_eq_magnitude]; exact hd
  obtain ⟨hu, hx, hy⟩ := normalized_unit hsq _ hd2
  have hTne : a.getInverseMass + b.getInverseMass ≠ 0 := ne_of_gt (lt_trans epsilon_pos hT)
  have hR : 0 ≤ a.radius + b.radius :=
    le_of_lt (lt_trans (lt_trans epsilon_pos hd) hov)
  unfold resolveCircleCircleCollision
  simp only []
  rw [(applyImpulse_position _ _ _).1, (applyImpulse_position _ _ _).2,
    (separateObjects_positions _ a b has hbs hov hT).1,
    (separateObjects_positions _ a b has hbs hov hT).2]
  rw [distance_eq_magnitude a.position b.position]
  generalize (b.position.sub a.position).normalized = n at hu hx hy
  generalize (b.position.sub a.position).magnitude = m at hx hy
  generalize a.getInverseMass = ia at hTne
  generalize b.getInverseMass = ib at hTne
  simp only [Vector2D.sub] at hx hy
  have key : ∀ t : F, HasSqrt.sqrt (t) = HasSqrt.sqrt ((a.radius + b.radius) * (a.radius + b.radius)) →
      HasSqrt.sqrt t = a.radius + b.radius := fun t ht => by
    rw [ht]; exact sqrt_mul_self hsq _ hR
  unfold Vector2D.distance Vector2D.magnitude
  simp only [Vector2D.sub, Vector2D.add, Vector2D.mul]
  apply key
  congr 1
  have e1 : a.position.x - n.x * ((a.radius + b.radius - m) / (ia + ib)) * ia -
      (b.position.x + n.x * ((a.radius + b.radius - m) / (ia + ib)) * ib) =
      -(n.x * (a.radius + b.radius)) := by
    field_simp
    linear_combination (ia + ib) * hx
  have e2 : a.position.y - n.y * ((a.radius + b.radius - m) / (ia + ib)) * ia -
      (b.position.y + n.y * ((a.radius + b.radius - m) / (ia + ib)) * ib) =
      -(n.y * (a.radius + b.radius)) := by
    field_simp
    linear_combination (ia + ib) * hy
  rw [e1, e2]
  linear_combination ((a.radius + b.radius) * (a.radius + b.radius)) * hu

theorem resolve_positions_of_heavy (a b : PhysicsObject F)
    (hT : ¬ epsilon F < a.getInverseMass + b.getInverseMass) :
    (resolveCircleCircleCollision a b).1.position = a.position ∧
    (resolveCircleCircleCollision a b).2.position = b.position := by
  unfold resolveCircleCircleCollision
  simp only []
  rw [(applyImpulse_position _ _ _).1, (applyImpulse_position _ _ _).2]
  unfold separateObjects
  simp only [gt_iff_lt, hT, if_false]
  split_ifs <;> exact ⟨rfl, rfl⟩

theorem resolve_positions_of_close (a b : PhysicsObject F)
    (hd : (b.position.sub a.position).magnitude ≤ epsilon F) :
    (resolveCircleCircleCollision a b).1.position = a.position ∧
    (resolveCircleCircleCollision a b).2.position = b.position := by
  have hn : (b.position.sub a.position).normalized = ⟨0, 0⟩ := by
    simp [Vector2D.normalized, not_lt.mpr hd]
  unfold resolveCircleCircleCollision
  simp only []
  rw [(applyImpulse_position _ _ _).1, (applyImpulse_position _ _ _).2, hn]
  unfold separateObjects
  simp only []
  split_ifs <;> simp [Vector2D.sub, Vector2D.add, Vector2D.mul]

/-- C3 (amended): for every pair of non-static circle bodies a, b with positive
masses that overlap (distance between centres `< a.radius + b.radius`), whose
centres are more than `1e-4` apart and whose inverse masses sum to more than
`1e-4` (`1/a.mass + 1/b.mass > 1e-4`), after
`resolveCircleCircleCollision(a, b)` the distance between their centres is
`≥ a.radius + b.radius` (in exact arithmetic it is equal to it). -/
theorem collision_separation (hsq : SqrtSpec F) (a b : PhysicsObject F)
    (has : a.isStatic = false) (hbs : b.isStatic = false)
    (_hma : 0 < a.mass) (_hmb : 0 < b.mass)
    (hov : Vector2D.distance a.position b.position < a.radius + b.radius)
    (hd : epsilon F < Vector2D.distance a.position b.position)
    (hT : epsilon F < 1 / a.mass + 1 / b.mass) :
    a.radius + b.radius ≤
      Vector2D.distance (resolveCircleCircleCollision a b).1.position
        (resolveCircleCircleCollision a b).2.position := by
  have hia : a.getInverseMass = 1 / a.mass := by
    simp [PhysicsObject.getInverseMass, has]
  have hib : b.getInverseMass = 1 / b.mass := by
    simp [PhysicsObject.getInverseMass, hbs]
  have hT2 : epsilon F < a.getInverseMass + b.getInverseMass := by
    rw [hia, hib]; exact hT
  exact le_of_eq (resolve_distance_eq hsq a b has hbs hov hd hT2).symm

theorem separateObjects_eq (n : Vector2D F) (a b : PhysicsObject F) :
    (separateObjects n a b).1 = { a with position := (separateObjects n a b).1.position } ∧
    (separateObjects n a b).2 = { b with position := (separateObjects n a b).2.position } := by
  unfold separateObjects
  simp only []
  split_ifs <;> exact ⟨rfl, rfl⟩

/-- The velocities after `resolveCircleCircleCollision` are those the impulse
part computes from the objects on entry: the positional correction changes
nothing the impulse part reads. -/
theorem resolve_velocity (a b : PhysicsObject F) :
    (resolveCircleCircleCollision a b).1.velocity =
      (applyImpulse ((b.position.sub a.position).normalized) a b).1.velocity ∧
    (resolveCircleCircleCollision a b).2.velocity =
      (applyImpulse ((b.position.sub a.position).normalized) a b).2.velocity := by
  unfold resolveCircleCircleCollision
  simp only []
  obtain ⟨h1, h2⟩ := separateObjects_eq ((b.position.sub a.position).normalized) a b
  rw [h1, h2]
  unfold applyImpulse
  simp only [PhysicsObject.getInverseMass]
  split_ifs <;> exact ⟨rfl, rfl⟩

theorem resolve_velocity_of_close (a b : PhysicsObject F)
    (hd : (b.position.sub a.position).magnitude ≤ epsilon F) :
    (resolveCircleCircleCollision a b).1.velocity = a.velocity ∧
    (resolveCircleCircleCollision a b).2.velocity = b.velocity := by
  have hn : (b.position.sub a.position).normalized = ⟨0, 0⟩ := by
    simp [Vector2D.normalized, not_lt.mpr hd]
  rw [(resolve_velocity a b).1, (resolve_velocity a b).2, hn]
  unfold applyImpulse
  simp only []
  split_ifs <;> simp [Vector2D.sub, Vector2D.add, Vector2D.mul]

theorem resolve_kinetic_fields (a b : PhysicsObject F) :
    (resolveCircleCircleCollision a b).1.isStatic = a.isStatic ∧
    (resolveCircleCircleCollision a b).1.mass = a.mass ∧
    (resolveCircleCircleCollision a b).2.isStatic = b.isStatic ∧
    (resolveCircleCircleCollision a b).2.mass = b.mass := by
  obtain ⟨hfa, hfb⟩ := resolveCircleCircleCollision_frame a b
  refine ⟨?_, ?_, ?_, ?_⟩
  · have h := congrArg PhysicsObject.isStatic hfa.1; exact h
  · have h := congrArg PhysicsObject.mass hfa.1; exact h
  · have h := congrArg PhysicsObject.isStatic hfb.1; exact h
  · have h := congrArg PhysicsObject.mass hfb.1; exact h

/-- C5: for every two non-static circles with positive masses, both with
restitution 1.0, whose centres are more than `1e-4` apart,
`getKineticEnergy(a) + getKineticEnergy(b)` after
`resolveCircleCircleCollision(a, b)` equals its value before the call
(exactly, in exact arithmetic). -/
theorem elastic_energy_conserved (hsq : SqrtSpec F) (a b : PhysicsObject F)
    (has : a.isStatic = false) (hbs : b.isStatic = false)
    (hma : 0 < a.mass) (hmb : 0 < b.mass)
    (hea : a.restitution = 1) (heb : b.restitution = 1)
    (hd : epsilon F < Vector2D.distance a.position b.position) :
    (resolveCircleCircleCollision a b).1.getKineticEnergy +
      (resolveCircleCircleCollision a b).2.getKineticEnergy =
    a.getKineticEnergy + b.getKineticEnergy := by
  have hd2 : epsilon F < (b.position.sub a.position).magnitude := by
    rw [← distance_eq_magnitude]; exact hd
  obtain ⟨hu, -, -⟩ := normalized_unit hsq _ hd2
  obtain ⟨hsa, hmassa, hsb, hmassb⟩ := resolve_kinetic_fields a b
  obtain ⟨hva, hvb⟩ := resolve_velocity a b
  simp only [PhysicsObject.getKineticEnergy, hsa, hsb, hmassa, hmassb, hva, hvb, has, hbs,
    Bool.false_eq_true, if_false]
  generalize (b.position.sub a.position).normalized = n at hu
  unfold applyImpulse
  simp only [PhysicsObject.getInverseMass, has, hbs, hea, heb, Bool.false_eq_true, if_false,
    Bool.not_false, if_true, lt_irrefl]
  split_ifs with h
  · rfl
  · simp only [Vector2D.magnitudeSquared, Vector2D.sub, Vector2D.add, Vector2D.mul, Vector2D.dot]
    have hmane : a.mass ≠ 0 := ne_of_gt hma
    have hmbne : b.mass ≠ 0 := ne_of_gt hmb
    have hT : 1 / a.mass + 1 / b.mass ≠ 0 :=
      ne_of_gt (add_pos (one_div_pos.mpr hma) (one_div_pos.mpr hmb))
    exact elastic_energy_identity a.mass b.mass (1 / a.mass) (1 / b.mass) n.x n.y
      a.velocity.x a.velocity.y b.velocity.x b.velocity.y _
      (by field_simp) (by field_simp) hu (by field_simp; ring)

/-- C4 (amended): for two non-static circles a, b of equal positive mass, both
with restitution 1.0, whose centres are more than `1e-4` apart and whose
velocities are opposite, of equal magnitude and directed along the line of
centres towards each other (`a.velocity = k * (b.position - a.position)`,
`b.velocity = k * (a.position - b.position)` with `k ≥ 0`), after
`resolveCircleCircleCollision(a, b)` the velocities are swapped; this holds
whether or not the circles overlap. -/
theorem elastic_equal_mass_swap (hsq : SqrtSpec F) (a b : PhysicsObject F) (k : F)
    (has : a.isStatic = false) (hbs : b.isStatic = false)
    (hm : a.mass = b.mass) (hma : 0 < a.mass)
    (hea : a.restitution = 1) (heb : b.restitution = 1)
    (hd : epsilon F < Vector2D.distance a.position b.position)
    (hk : 0 ≤ k)
    (hva : a.velocity = (b.position.sub a.position).mul k)
    (hvb : b.velocity = (a.position.sub b.position).mul k) :
    (resolveCircleCircleCollision a b).1.velocity = b.velocity ∧
    (resolveCircleCircleCollision a b).2.velocity = a.velocity := by
  have hd2 : epsilon F < (b.position.sub a.position).magnitude := by
    rw [← distance_eq_magnitude]; exact hd
  obtain ⟨hu, hx, hy⟩ := normalized_unit hsq _ hd2
  have hmag : 0 < (b.position.sub a.position).magnitude := lt_trans epsilon_pos hd2
  rw [(resolve_velocity a b).1, (resolve_velocity a b).2]
  generalize (b.position.sub a.position).normalized = n at hu hx hy
  generalize (b.position.sub a.position).magnitude = m at hx hy hmag
  simp only [Vector2D.sub] at hx hy
  have hmne : b.mass ≠ 0 := by rw [← hm]; exact ne_of_gt hma
  have hvn : (b.velocity.sub a.velocity).dot n = -2 * k * m := by
    rw [hva, hvb]
    simp only [Vector2D.sub, Vector2D.mul, Vector2D.dot]
    linear_combination (2 * k * n.x) * hx + (2 * k * n.y) * hy + (-2 * k * m) * hu
  have hnot : ¬ (b.velocity.sub a.velocity).dot n > 0 := by
    rw [hvn]
    have : 0 ≤ k * m := mul_nonneg hk (le_of_lt hmag)
    intro h
    linarith
  unfold applyImpulse
  simp only []
  rw [if_neg hnot, hvn]
  simp only [PhysicsObject.getInverseMass, has, hbs, hea, heb,
    Bool.false_eq_true, Bool.not_false, if_true, if_false, lt_irrefl, hm]
  rw [hva, hvb]
  simp only [Vector2D.sub, Vector2D.add, Vector2D.mul]
  constructor
  · ext
    · simp only []
      field_simp
      linear_combination (-4 * k * b.mass) * hx
    · simp only []
      field_simp
      linear_combination (-4 * k * b.mass) * hy
  · ext
    · simp only []
      field_simp
      linear_combination (4 * k * b.mass) * hx
    · simp only []
      field_simp
      linear_combination (4 * k * b.mass) * hy

end CollisionAlgebra

section CollisionExamples

open PhysicsEngine

/-- Over the reals with `Real.sqrt`, the distance of two points on a horizontal
line is the difference of their abscissae. -/
theorem real_distance_horizontal (x1 x2 y : ℝ) (h : x1 ≤ x2) :
    @Vector2D.distance ℝ _ ⟨Real.sqrt⟩ ⟨x1, y⟩ ⟨x2, y⟩ = x2 - x1 := by
  have e : (x1 - x2) * (x1 - x2) + (y - y) * (y - y) = (x2 - x1) * (x2 - x1) := by ring
  simp only [Vector2D.distance, Vector2D.magnitude, Vector2D.sub, e]
  exact Real.sqrt_mul_self (by linarith)

/-- Witness for C3 (amended): two default balls (radius 20, mass 1) whose
centres are 30 apart are 40 apart after resolution. -/
theorem collision_separation_witness :
    (ballAt (⟨0, 0⟩ : Vector2D ℝ)).radius + (ballAt (⟨30, 0⟩ : Vector2D ℝ)).radius ≤
      @Vector2D.distance ℝ _ ⟨Real.sqrt⟩
        (@resolveCircleCircleCollision ℝ _ ⟨Real.sqrt⟩ (ballAt ⟨0, 0⟩) (ballAt ⟨30, 0⟩)).1.position
        (@resolveCircleCircleCollision ℝ _ ⟨Real.sqrt⟩ (ballAt ⟨0, 0⟩) (ballAt ⟨30, 0⟩)).2.position :=
  @collision_separation ℝ _ ⟨Real.sqrt⟩ real_sqrtSpec (ballAt ⟨0, 0⟩) (ballAt ⟨30, 0⟩) rfl rfl
    (by norm_num [ballAt, PhysicsObject.new])
    (by norm_num [ballAt, PhysicsObject.new])
    (by
      have h := real_distance_horizontal 0 30 0 (by norm_num)
      simp only [ballAt, PhysicsObject.new]
      rw [h]; norm_num)
    (by
      have h := real_distance_horizontal 0 30 0 (by norm_num)
      simp only [ballAt, PhysicsObject.new, epsilon]
      rw [h]; norm_num)
    (by norm_num [ballAt, PhysicsObject.new, epsilon])

/-- C3 (as stated) fails in two ways.  Two overlapping default balls (radius
20, mass 1) with the same centre `(0, 0)` get the zero vector as collision
normal and stay at distance 0.  Two overlapping balls of mass 40000 with
centres 10 apart have total inverse mass `5e-5`, not above `1e-4`, so the separation is
skipped and they stay at distance 10.  Both distances are below the sum of
radii 40. -/
theorem collision_separation_counterexample :
    ((ballAt (⟨0, 0⟩ : Vector2D ℝ)).isStatic = false ∧
      0 < (ballAt (⟨0, 0⟩ : Vector2D ℝ)).mass ∧
      @Vector2D.distance ℝ _ ⟨Real.sqrt⟩ (ballAt (⟨0, 0⟩ : Vector2D ℝ)).position
          (ballAt (⟨0, 0⟩ : Vector2D ℝ)).position <
        (ballAt (⟨0, 0⟩ : Vector2D ℝ)).radius + (ballAt (⟨0, 0⟩ : Vector2D ℝ)).radius ∧
      ¬ ((ballAt (⟨0, 0⟩ : Vector2D ℝ)).radius + (ballAt (⟨0, 0⟩ : Vector2D ℝ)).radius ≤
        @Vector2D.distance ℝ _ ⟨Real.sqrt⟩
          (@resolveCircleCircleCollision ℝ _ ⟨Real.sqrt⟩
            (ballAt ⟨0, 0⟩) (ballAt ⟨0, 0⟩)).1.position
          (@resolveCircleCircleCollision ℝ _ ⟨Real.sqrt⟩
            (ballAt ⟨0, 0⟩) (ballAt ⟨0, 0⟩)).2.position)) ∧
    ((heavyBallAt (⟨0, 0⟩ : Vector2D ℝ)).isStatic = false ∧
      (heavyBallAt (⟨10, 0⟩ : Vector2D ℝ)).isStatic = false ∧
      0 < (heavyBallAt (⟨0, 0⟩ : Vector2D ℝ)).mass ∧
      0 < (heavyBallAt (⟨10, 0⟩ : Vector2D ℝ)).mass ∧
      @Vector2D.distance ℝ _ ⟨Real.sqrt⟩ (heavyBallAt (⟨0, 0⟩ : Vector2D ℝ)).position
          (heavyBallAt (⟨10, 0⟩ : Vector2D ℝ)).position <
        (heavyBallAt (⟨0, 0⟩ : Vector2D ℝ)).radius + (heavyBallAt (⟨10, 0⟩ : Vector2D ℝ)).radius ∧
      ¬ ((heavyBallAt (⟨0, 0⟩ : Vector2D ℝ)).radius + (heavyBallAt (⟨10, 0⟩ : Vector2D ℝ)).radius ≤
        @Vector2D.distance ℝ _ ⟨Real.sqrt⟩
          (@resolveCircleCircleCollision ℝ _ ⟨Real.sqrt⟩
            (heavyBallAt ⟨0, 0⟩) (heavyBallAt ⟨10, 0⟩)).1.position
          (@resolveCircleCircleCollision ℝ _ ⟨Real.sqrt⟩
            (heavyBallAt ⟨0, 0⟩) (heavyBallAt ⟨10, 0⟩)).2.position)) := by
  have h0 := real_distance_horizontal 0 0 0 (le_refl _)
  have h10 := real_distance_horizontal 0 10 0 (by norm_num)
  have hc := @resolve_positions_of_close ℝ _ ⟨Real.sqrt⟩ (ballAt ⟨0, 0⟩) (ballAt ⟨0, 0⟩)
    (by
      have e : @Vector2D.magnitude ℝ _ ⟨Real.sqrt⟩
          (((ballAt (⟨0, 0⟩ : Vector2D ℝ)).position).sub (ballAt (⟨0, 0⟩ : Vector2D ℝ)).position)
          = 0 := by
        simpa [Vector2D.distance, ballAt, PhysicsObject.new] using h0
      rw [e]; exact le_of_lt epsilon_pos)
  have hh := @resolve_positions_of_heavy ℝ _ ⟨Real.sqrt⟩ (heavyBallAt ⟨0, 0⟩) (heavyBallAt ⟨10, 0⟩)
    (by norm_num [heavyBallAt, ballAt, PhysicsObject.new, epsilon, PhysicsObject.getInverseMass])
  rw [hc.1, hc.2, hh.1, hh.2]
  simp only [heavyBallAt, ballAt, PhysicsObject.new]
  rw [h0, h10]
  norm_num

/-- Witness for C4 (amended): the two bodies of the ElasticCollisions preset
(mass 15, restitution 1, radius 20, velocities `(200, 0)` and `(-200, 0)`) at
the moment their circles overlap, with centres `(535, 360)` and `(565, 360)`,
so `k = 20/3`. -/
theorem elastic_equal_mass_swap_witness :
    (@resolveCircleCircleCollision ℝ _ ⟨Real.sqrt⟩
        (elasticBall ⟨535, 360⟩ ⟨200, 0⟩) (elasticBall ⟨565, 360⟩ ⟨-200, 0⟩)).1.velocity
      = (elasticBall (⟨565, 360⟩ : Vector2D ℝ) ⟨-200, 0⟩).velocity ∧
    (@resolveCircleCircleCollision ℝ _ ⟨Real.sqrt⟩
        (elasticBall ⟨535, 360⟩ ⟨200, 0⟩) (elasticBall ⟨565, 360⟩ ⟨-200, 0⟩)).2.velocity
      = (elasticBall (⟨535, 360⟩ : Vector2D ℝ) ⟨200, 0⟩).velocity :=
  @elastic_equal_mass_swap ℝ _ ⟨Real.sqrt⟩ real_sqrtSpec
    (elasticBall ⟨535, 360⟩ ⟨200, 0⟩) (elasticBall ⟨565, 360⟩ ⟨-200, 0⟩) (20 / 3)
    rfl rfl rfl (by norm_num [elasticBall, PhysicsObject.new]) rfl rfl
    (by
      have h := real_distance_horizontal 535 565 360 (by norm_num)
      simp only [elasticBall, PhysicsObject.new, epsilon]
      rw [h]; norm_num)
    (by norm_num)
    (by ext <;> norm_num [elasticBall, PhysicsObject.new, Vector2D.sub, Vector2D.mul])
    (by ext <;> norm_num [elasticBall, PhysicsObject.new, Vector2D.sub, Vector2D.mul])

/-- C4 (as stated) fails: two overlapping bodies of the ElasticCollisions kind
(mass 15, restitution 1, radius 20) at `(0, 0)` and `(1/20000, 0)` with the
head-on velocities `(200, 0)` and `(-200, 0)` have their centres `5e-5` apart,
so the collision normal is the zero vector, the impulse is zero and body a
keeps the velocity `(200, 0)` instead of receiving `(-200, 0)`. -/
theorem elastic_equal_mass_swap_counterexample :
    (elasticBall (⟨0, 0⟩ : Vector2D ℝ) ⟨200, 0⟩).isStatic = false ∧
    (elasticBall (⟨1 / 20000, 0⟩ : Vector2D ℝ) ⟨-200, 0⟩).isStatic = false ∧
    (elasticBall (⟨0, 0⟩ : Vector2D ℝ) ⟨200, 0⟩).mass
      = (elasticBall (⟨1 / 20000, 0⟩ : Vector2D ℝ) ⟨-200, 0⟩).mass ∧
    0 < (elasticBall (⟨0, 0⟩ : Vector2D ℝ) ⟨200, 0⟩).mass ∧
    (elasticBall (⟨0, 0⟩ : Vector2D ℝ) ⟨200, 0⟩).restitution = 1 ∧
    (elasticBall (⟨1 / 20000, 0⟩ : Vector2D ℝ) ⟨-200, 0⟩).restitution = 1 ∧
    @Vector2D.distance ℝ _ ⟨Real.sqrt⟩ (elasticBall (⟨0, 0⟩ : Vector2D ℝ) ⟨200, 0⟩).position
        (elasticBall (⟨1 / 20000, 0⟩ : Vector2D ℝ) ⟨-200, 0⟩).position <
      (elasticBall (⟨0, 0⟩ : Vector2D ℝ) ⟨200, 0⟩).radius
        + (elasticBall (⟨1 / 20000, 0⟩ : Vector2D ℝ) ⟨-200, 0⟩).radius ∧
    (elasticBall (⟨0, 0⟩ : Vector2D ℝ) ⟨200, 0⟩).velocity =
      ((elasticBall (⟨1 / 20000, 0⟩ : Vector2D ℝ) ⟨-200, 0⟩).position.sub
        (elasticBall (⟨0, 0⟩ : Vector2D ℝ) ⟨200, 0⟩).position).mul 4000000 ∧
    (elasticBall (⟨1 / 20000, 0⟩ : Vector2D ℝ) ⟨-200, 0⟩).velocity =
      ((elasticBall (⟨0, 0⟩ : Vector2D ℝ) ⟨200, 0⟩).position.sub
        (elasticBall (⟨1 / 20000, 0⟩ : Vector2D ℝ) ⟨-200, 0⟩).position).mul 4000000 ∧
    (@resolveCircleCircleCollision ℝ _ ⟨Real.sqrt⟩
        (elasticBall ⟨0, 0⟩ ⟨200, 0⟩) (elasticBall ⟨1 / 20000, 0⟩ ⟨-200, 0⟩)).1.velocity
      = ⟨200, 0⟩ ∧
    ¬ ((@resolveCircleCircleCollision ℝ _ ⟨Real.sqrt⟩
        (elasticBall ⟨0, 0⟩ ⟨200, 0⟩) (elasticBall ⟨1 / 20000, 0⟩ ⟨-200, 0⟩)).1.velocity
      = (elasticBall (⟨1 / 20000, 0⟩ : Vector2D ℝ) ⟨-200, 0⟩).velocity) := by
  have hdist := real_distance_horizontal 0 (1 / 20000) 0 (by norm_num)
  have hmag : @Vector2D.magnitude ℝ _ ⟨Real.sqrt⟩
      ((elasticBall (⟨1 / 20000, 0⟩ : Vector2D ℝ) ⟨-200, 0⟩).position.sub
        (elasticBall (⟨0, 0⟩ : Vector2D ℝ) ⟨200, 0⟩).position) = 1 / 20000 - 0 := by
    rw [← hdist]
    exact (@distance_eq_magnitude ℝ _ ⟨Real.sqrt⟩ _ _).symm
  have hv := @resolve_velocity_of_close ℝ _ ⟨Real.sqrt⟩
    (elasticBall ⟨0, 0⟩ ⟨200, 0⟩) (elasticBall ⟨1 / 20000, 0⟩ ⟨-200, 0⟩)
    (by rw [hmag]; norm_num [epsilon])
  rw [hv.1]
  refine ⟨rfl, rfl, rfl, by norm_num [elasticBall, PhysicsObject.new], rfl, rfl, ?_, ?_, ?_, rfl, ?_⟩
  · simp only [elasticBall, PhysicsObject.new]
    rw [hdist]; norm_num
  · ext <;> norm_num [elasticBall, PhysicsObject.new, Vector2D.sub, Vector2D.mul]
  · ext <;> norm_num [elasticBall, PhysicsObject.new, Vector2D.sub, Vector2D.mul]
  · intro h
    have hx := congrArg Vector2D.x h
    norm_num [elasticBall, PhysicsObject.new] at hx

/-- Witness for C5: two overlapping bodies of masses 15 and 40000, both with
restitution 1, centres 30 apart. -/
theorem elastic_energy_conserved_witness :
    (@resolveCircleCircleCollision ℝ _ ⟨Real.sqrt⟩
        (elasticBall ⟨0, 0⟩ ⟨200, 10⟩)
        { heavyBallAt ⟨30, 0⟩ with restitution := 1 }).1.getKineticEnergy +
      (@resolveCircleCircleCollision ℝ _ ⟨Real.sqrt⟩
        (elasticBall ⟨0, 0⟩ ⟨200, 10⟩)
        { heavyBallAt ⟨30, 0⟩ with restitution := 1 }).2.getKineticEnergy =
    (elasticBall (⟨0, 0⟩ : Vector2D ℝ) ⟨200, 10⟩).getKineticEnergy +
      ({ heavyBallAt (⟨30, 0⟩ : Vector2D ℝ) with restitution := 1 }).getKineticEnergy :=
  @elastic_energy_conserved ℝ _ ⟨Real.sqrt⟩ real_sqrtSpec
    (elasticBall ⟨0, 0⟩ ⟨200, 10⟩) { heavyBallAt ⟨30, 0⟩ with restitution := 1 }
    rfl rfl (by norm_num [elasticBall, PhysicsObject.new])
    (by norm_num [heavyBallAt, ballAt, PhysicsObject.new]) rfl rfl
    (by
      have h := real_distance_horizontal 0 30 0 (by norm_num)
      simp only [elasticBall, heavyBallAt, ballAt, PhysicsObject.new, epsilon]
      rw [h]; norm_num)

/-- Witness for C6: over the reals `(3, 4)` has magnitude 5, above the
threshold, so it is divided by a non-zero magnitude; `(0, 0)` has magnitude 0,
below the threshold, and normalizes to `(0, 0)`. -/
theorem normalized_safe_witness :
    @Vector2D.magnitude ℝ _ ⟨Real.sqrt⟩ ⟨3, 4⟩ = 5 ∧
    @Vector2D.magnitude ℝ _ ⟨Real.sqrt⟩ ⟨3, 4⟩ ≠ 0 ∧
    @Vector2D.normalized ℝ _ ⟨Real.sqrt⟩ ⟨3, 4⟩ =
      Vector2D.div ⟨3, 4⟩ (@Vector2D.magnitude ℝ _ ⟨Real.sqrt⟩ ⟨3, 4⟩) ∧
    @Vector2D.magnitude ℝ _ ⟨Real.sqrt⟩ ⟨0, 0⟩ = 0 ∧
    @Vector2D.normalized ℝ _ ⟨Real.sqrt⟩ ⟨0, 0⟩ = ⟨0, 0⟩ := by
  have h5 : @Vector2D.magnitude ℝ _ ⟨Real.sqrt⟩ ⟨3, 4⟩ = 5 := by
    have e : (3 : ℝ) * 3 + 4 * 4 = 5 * 5 := by norm_num
    simp only [Vector2D.magnitude, e]
    exact Real.sqrt_mul_self (by norm_num)
  have h0 : @Vector2D.magnitude ℝ _ ⟨Real.sqrt⟩ ⟨0, 0⟩ = 0 := by
    simp [Vector2D.magnitude]
  have hbig := (@normalized_safe ℝ _ ⟨Real.sqrt⟩ ⟨3, 4⟩).2.1
    (by rw [h5]; norm_num [epsilon])
  have hzero := (@normalized_safe ℝ _ ⟨Real.sqrt⟩ ⟨0, 0⟩).1
    (by rw [h0]; exact le_of_lt epsilon_pos)
  exact ⟨h5, hbig.1, hbig.2, h0, hzero⟩

end CollisionExamples

section EnergyTotals

variable {F : Type} [LinearOrderedField F]

open PhysicsEngine

theorem foldl_add_eq_sum {α : Type} (f : α → F) (l : List α) (init : F) :
    l.foldl (fun total obj => total + f obj) init = init + (l.map f).sum := by
  induction l generalizing init with
  | nil => simp
  | cons x xs ih =>
    rw [List.foldl_cons, ih, List.map_cons, List.sum_cons, add_assoc]

theorem sum_skip_static (g : PhysicsObject F → F) (l : List (PhysicsObject F)) :
    (l.map (fun o => if o.isStatic then 0 else g o)).sum =
      ((l.filter (fun o => !o.isStatic)).map g).sum := by
  induction l with
  | nil => simp
  | cons x xs ih =>
    cases hx : x.isStatic <;> simp [List.filter_cons, hx, ih]

end EnergyTotals

section EnergyTotalsClaim

variable {F : Type} [LinearOrderedField F] [HasSqrt F]

open PhysicsEngine

/-- C13: for every engine state `getTotalEnergy()` is
`getTotalKineticEnergy() + getTotalPotentialEnergy()`; the kinetic total is the
sum over the non-static bodies of `1/2 * mass * |velocity|^2`, the potential
total is the sum over the non-static bodies of `mass * |gravity| * position.y`
with `|gravity|` the magnitude of the gravity vector; a static body contributes
0 to both. -/
theorem energy_totals (e : PhysicsEngine F) :
    e.getTotalEnergy = e.getTotalKineticEnergy + e.getTotalPotentialEnergy ∧
    e.getTotalKineticEnergy =
      ((e.objects.filter (fun o => !o.isStatic)).map
        (fun o => 1 / 2 * o.mass * (o.velocity.x * o.velocity.x + o.velocity.y * o.velocity.y))).sum ∧
    e.getTotalPotentialEnergy =
      ((e.objects.filter (fun o => !o.isStatic)).map
        (fun o => o.mass * HasSqrt.sqrt (e.gravity.x * e.gravity.x + e.gravity.y * e.gravity.y)
          * o.position.y)).sum ∧
    (∀ o : PhysicsObject F, o.isStatic = true →
      o.getKineticEnergy = 0 ∧
      o.getPotentialEnergy (HasSqrt.sqrt (e.gravity.x * e.gravity.x + e.gravity.y * e.gravity.y))
        = 0) := by
  refine ⟨rfl, ?_, ?_, ?_⟩
  · unfold getTotalKineticEnergy
    rw [foldl_add_eq_sum, zero_add, ← sum_skip_static]
    rfl
  · unfold getTotalPotentialEnergy
    simp only []
    rw [foldl_add_eq_sum, zero_add, ← sum_skip_static]
    rfl
  · intro o hs
    simp [PhysicsObject.getKineticEnergy, PhysicsObject.getPotentialEnergy, hs]

end EnergyTotalsClaim

section Impulse

variable {F : Type} [LinearOrderedField F]

open PhysicsEngine

/-- The impulse part in terms of the named quantities: it returns its arguments
when `velocityAlongNormal > 0`, and otherwise computes
`j = -(1 + e) * velocityAlongNormal / impulseDivisor`. -/
theorem applyImpulse_eq (n : Vector2D F) (a b : PhysicsObject F) :
    applyImpulse n a b =
      if velocityAlongNormal n a b > 0 then (a, b)
      else
        (if !a.isStatic then
           { a with velocity := a.velocity.sub ((n.mul
              (-(1 + (if b.restitution < a.restitution then b.restitution else a.restitution))
                * velocityAlongNormal n a b / impulseDivisor a b)).mul a.getInverseMass) }
         else a,
         if !b.isStatic then
           { b with velocity := b.velocity.add ((n.mul
              (-(1 + (if b.restitution < a.restitution then b.restitution else a.restitution))
                * velocityAlongNormal n a b / impulseDivisor a b)).mul b.getInverseMass) }
         else b) := rfl

/-- Both velocities after the impulse part, written without case distinction on
`isStatic` (a static body has inverse mass 0): `a.velocity - j * ia * n` and
`b.velocity + j * ib * n`, where `j` is 0 in the separating case. -/
theorem applyImpulse_velocity (n : Vector2D F) (a b : PhysicsObject F) :
    ∃ j : F,
      (velocityAlongNormal n a b > 0 → j = 0) ∧
      (¬ velocityAlongNormal n a b > 0 →
        j = -(1 + min a.restitution b.restitution) * velocityAlongNormal n a b
          / impulseDivisor a b) ∧
      (applyImpulse n a b).1.velocity = a.velocity.sub ((n.mul j).mul a.getInverseMass) ∧
      (applyImpulse n a b).2.velocity = b.velocity.add ((n.mul j).mul b.getInverseMass) := by
  have hmin : (if b.restitution < a.restitution then b.restitution else a.restitution)
      = min a.restitution b.restitution := by
    rcases lt_or_le b.restitution a.restitution with h | h
    · rw [if_pos h, min_eq_right (le_of_lt h)]
    · rw [if_neg (not_lt.mpr h), min_eq_left h]
  rw [applyImpulse_eq, hmin]
  by_cases hv : velocityAlongNormal n a b > 0
  · refine ⟨0, fun _ => rfl, fun h => absurd hv h, ?_, ?_⟩ <;>
      · rw [if_pos hv]
        ext <;> simp [Vector2D.sub, Vector2D.add, Vector2D.mul]
  · refine ⟨_, fun h => absurd h hv, fun _ => rfl, ?_, ?_⟩
    · rw [if_neg hv]
      cases ha : a.isStatic <;>
        simp [PhysicsObject.getInverseMass, ha, Vector2D.sub, Vector2D.mul]
    · rw [if_neg hv]
      cases hb : b.isStatic <;>
        simp [PhysicsObject.getInverseMass, hb, Vector2D.add, Vector2D.mul]

theorem impulseDivisor_pos (a b : PhysicsObject F)
    (hstat : a.isStatic = false ∨ b.isStatic = false)
    (hma : a.isStatic = false → 0 < a.mass) (hmb : b.isStatic = false → 0 < b.mass) :
    0 < impulseDivisor a b := by
  unfold impulseDivisor PhysicsObject.getInverseMass
  cases ha : a.isStatic <;> cases hb : b.isStatic
  · have h1 := one_div_pos.mpr (hma ha)
    have h2 := one_div_pos.mpr (hmb hb)
    simp only [Bool.false_eq_true, if_false]
    linarith
  · have h1 := one_div_pos.mpr (hma ha)
    simp only [Bool.false_eq_true, if_false, if_true]
    linarith
  · have h2 := one_div_pos.mpr (hmb hb)
    simp only [Bool.false_eq_true, if_false, if_true]
    linarith
  · rw [ha, hb] at hstat
    simp at hstat

end Impulse

section ImpulseClaims

variable {F : Type} [LinearOrderedField F] [HasSqrt F]

open PhysicsEngine

/-- C19: for every two non-static bodies a, b with positive masses and
arbitrary restitutions, positions and velocities,
`resolveCircleCircleCollision(a, b)` preserves total linear momentum:
`a.mass * a.velocity' + b.mass * b.velocity' = a.mass * a.velocity + b.mass * b.velocity`
(the masses themselves are unchanged). -/
theorem momentum_conserved (a b : PhysicsObject F)
    (has : a.isStatic = false) (hbs : b.isStatic = false)
    (hma : 0 < a.mass) (hmb : 0 < b.mass) :
    ((resolveCircleCircleCollision a b).1.velocity.mul a.mass).add
        ((resolveCircleCircleCollision a b).2.velocity.mul b.mass) =
      (a.velocity.mul a.mass).add (b.velocity.mul b.mass) ∧
    (resolveCircleCircleCollision a b).1.mass = a.mass ∧
    (resolveCircleCircleCollision a b).2.mass = b.mass := by
  obtain ⟨-, hmassa, -, hmassb⟩ := resolve_kinetic_fields a b
  refine ⟨?_, hmassa, hmassb⟩
  rw [(resolve_velocity a b).1, (resolve_velocity a b).2]
  obtain ⟨j, -, -, hva, hvb⟩ :=
    applyImpulse_velocity ((b.position.sub a.position).normalized) a b
  rw [hva, hvb]
  have hane : a.mass ≠ 0 := ne_of_gt hma
  have hbne : b.mass ≠ 0 := ne_of_gt hmb
  ext
  · simp only [Vector2D.sub, Vector2D.add, Vector2D.mul, PhysicsObject.getInverseMass, has, hbs,
      Bool.false_eq_true, if_false]
    field_simp
  · simp only [Vector2D.sub, Vector2D.add, Vector2D.mul, PhysicsObject.getInverseMass, has, hbs,
      Bool.false_eq_true, if_false]
    field_simp

/-- C18: for two bodies a, b, at least one non-static, the non-static ones
having mass `> 0`, with centres more than `1e-4` apart, and
`n = normalized(b.position - a.position)`: when `(b.velocity - a.velocity)·n ≤ 0`,
after `resolveCircleCircleCollision(a, b)` the relative velocity along `n` is
`-e` times what it was, `e = min(a.restitution, b.restitution)`, and the
component of each body's velocity perpendicular to `n` (the velocity minus its
projection on `n`) is unchanged; when `(b.velocity - a.velocity)·n > 0` both
velocities are unchanged. -/
theorem law_of_restitution (hsq : SqrtSpec F) (a b : PhysicsObject F) (n : Vector2D F)
    (hn : n = (b.position.sub a.position).normalized)
    (hstat : a.isStatic = false ∨ b.isStatic = false)
    (hma : a.isStatic = false → 0 < a.mass) (hmb : b.isStatic = false → 0 < b.mass)
    (hd : epsilon F < Vector2D.distance a.position b.position) :
    (velocityAlongNormal n a b ≤ 0 →
      velocityAlongNormal n (resolveCircleCircleCollision a b).1
          (resolveCircleCircleCollision a b).2
        = -(min a.restitution b.restitution) * velocityAlongNormal n a b ∧
      (resolveCircleCircleCollision a b).1.velocity.sub
          (n.mul ((resolveCircleCircleCollision a b).1.velocity.dot n))
        = a.velocity.sub (n.mul (a.velocity.dot n)) ∧
      (resolveCircleCircleCollision a b).2.velocity.sub
          (n.mul ((resolveCircleCircleCollision a b).2.velocity.dot n))
        = b.velocity.sub (n.mul (b.velocity.dot n))) ∧
    (velocityAlongNormal n a b > 0 →
      (resolveCircleCircleCollision a b).1.velocity = a.velocity ∧
      (resolveCircleCircleCollision a b).2.velocity = b.velocity) := by
  subst hn
  have hd2 : epsilon F < (b.position.sub a.position).magnitude := by
    rw [← distance_eq_magnitude]; exact hd
  obtain ⟨hu, -, -⟩ := normalized_unit hsq _ hd2
  have hD := impulseDivisor_pos a b hstat hma hmb
  have hDne : impulseDivisor a b ≠ 0 := ne_of_gt hD
  obtain ⟨j, hj0, hj1, hva, hvb⟩ :=
    applyImpulse_velocity ((b.position.sub a.position).normalized) a b
  rw [← (resolve_velocity a b).1] at hva
  rw [← (resolve_velocity a b).2] at hvb
  generalize (b.position.sub a.position).normalized = n at hu hj0 hj1 hva hvb ⊢
  constructor
  · intro hle
    have hj := hj1 (not_lt.mpr hle)
    have hjD : j * (a.getInverseMass + b.getInverseMass)
        = -(1 + min a.restitution b.restitution) * velocityAlongNormal n a b := by
      rw [hj]
      unfold impulseDivisor at hDne ⊢
      field_simp
    unfold velocityAlongNormal at hjD ⊢
    simp only [Vector2D.sub, Vector2D.dot] at hjD
    refine ⟨?_, ?_, ?_⟩
    · rw [hva, hvb]
      simp only [Vector2D.sub, Vector2D.add, Vector2D.mul, Vector2D.dot]
      linear_combination (j * (a.getInverseMass + b.getInverseMass)) * hu + hjD
    · rw [hva]
      ext
      · simp only [Vector2D.sub, Vector2D.mul, Vector2D.dot]
        linear_combination (n.x * j * a.getInverseMass) * hu
      · simp only [Vector2D.sub, Vector2D.mul, Vector2D.dot]
        linear_combination (n.y * j * a.getInverseMass) * hu
    · rw [hvb]
      ext
      · simp only [Vector2D.sub, Vector2D.add, Vector2D.mul, Vector2D.dot]
        linear_combination (-(n.x * j * b.getInverseMass)) * hu
      · simp only [Vector2D.sub, Vector2D.add, Vector2D.mul, Vector2D.dot]
        linear_combination (-(n.y * j * b.getInverseMass)) * hu
  · intro hgt
    have hj := hj0 hgt
    rw [hva, hvb, hj]
    constructor <;> ext <;> simp [Vector2D.sub, Vector2D.add, Vector2D.mul]

end ImpulseClaims

section StepFields

variable {F : Type} [LinearOrderedField F]

open PhysicsEngine

theorem integrateObject_euler_fields (m : IntegrationMethod)
    (hm : m = IntegrationMethod.Euler ∨ m = IntegrationMethod.SemiImplicitEuler)
    (dt : F) (x : PhysicsObject F) (hs : x.isStatic = false) :
    (integrateObject m dt x).acceleration = x.forceAccumulator.mul x.getInverseMass ∧
    (integrateObject m dt x).velocity =
      x.velocity.add ((integrateObject m dt x).acceleration.mul dt) ∧
    (integrateObject m dt x).position =
      x.position.add ((integrateObject m dt x).velocity.mul dt) := by
  rcases hm with rfl | rfl <;>
    simp [integrateObject, hs, integrateEuler, integrateSemiImplicitEuler,
      PhysicsObject.clearForces]

theorem integrateObject_verlet_fields (dt : F) (x : PhysicsObject F) (hs : x.isStatic = false) :
    (integrateObject IntegrationMethod.Verlet dt x).acceleration
      = x.forceAccumulator.mul x.getInverseMass ∧
    (integrateObject IntegrationMethod.Verlet dt x).position =
      ((x.position.mul 2).sub x.previousPosition).add
        ((integrateObject IntegrationMethod.Verlet dt x).acceleration.mul (dt * dt)) ∧
    (integrateObject IntegrationMethod.Verlet dt x).previousPosition = x.position ∧
    (integrateObject IntegrationMethod.Verlet dt x).velocity =
      ((integrateObject IntegrationMethod.Verlet dt x).position.sub x.position).div dt := by
  simp [integrateObject, hs, integrateVerlet, PhysicsObject.clearForces]

/-- What the force passes leave untouched, field by field. -/
theorem forceFrame_fields (o o2 : PhysicsObject F) (h : ForceFrame o o2) :
    o2.position = o.position ∧ o2.velocity = o.velocity ∧
    o2.previousPosition = o.previousPosition ∧ o2.isStatic = o.isStatic ∧
    o2.getInverseMass = o.getInverseMass := by
  have hp := congrArg PhysicsObject.position h.1
  have hv := congrArg PhysicsObject.velocity h.1
  have hq := congrArg PhysicsObject.previousPosition h.1
  have hst := congrArg PhysicsObject.isStatic h.1
  have hmass := congrArg PhysicsObject.mass h.1
  simp only [] at hp hv hq hst hmass
  refine ⟨hp, hv, hq, hst, ?_⟩
  unfold PhysicsObject.getInverseMass
  rw [hst, hmass]

theorem integrateObject_mass_static (m : IntegrationMethod) (dt : F) (x : PhysicsObject F) :
    (integrateObject m dt x).mass = x.mass ∧ (integrateObject m dt x).isStatic = x.isStatic := by
  unfold integrateObject
  cases m <;>
    (simp only [integrateEuler, integrateSemiImplicitEuler, integrateVerlet,
      PhysicsObject.clearForces]
     split_ifs <;> exact ⟨rfl, rfl⟩)

end StepFields

section StepClaims

variable {F : Type} [LinearOrderedField F] [HasSqrt F]

open PhysicsEngine

/-- With collisions disabled the collection after `update(dt)` holds at every
index the stepped old object. -/
theorem update_getElem_of_no_collisions (e : PhysicsEngine F) (dt : F) (k : Nat)
    (o : PhysicsObject F) (hc : e.collisionsEnabled = false) (hk : e.objects[k]? = some o) :
    (e.update dt).objects[k]? = some (e.stepObject dt o) := by
  rw [update_objects, hc]
  simp only [Bool.false_eq_true, if_false]
  rw [List.getElem?_map, hk]
  rfl

/-- The force accumulated in one step by a body that starts with an empty
accumulator, under gravity and linear friction only. -/
theorem forces_gravity_friction (e : PhysicsEngine F) (o : PhysicsObject F)
    (hg : e.gravityEnabled = true) (hair : e.airResistanceCoefficient = 0)
    (hs : o.isStatic = false) (hf : 0 ≤ o.friction) (hfa : o.forceAccumulator = ⟨0, 0⟩) :
    (applyAirResistanceTo e.airResistanceCoefficient
      (applyFrictionTo (if e.gravityEnabled then applyGravityTo e.gravity o else o))).forceAccumulator
      = (e.gravity.mul o.mass).sub (o.velocity.mul o.friction) := by
  have hair2 : applyAirResistanceTo e.airResistanceCoefficient
      (applyFrictionTo (if e.gravityEnabled then applyGravityTo e.gravity o else o))
      = applyFrictionTo (applyGravityTo e.gravity o) := by
    rw [hg, hair]
    simp [applyAirResistanceTo]
  rw [hair2]
  rcases lt_or_eq_of_le hf with hpos | hzero
  · simp only [applyFrictionTo, applyGravityTo, PhysicsObject.addForce, hs, hfa, hpos,
      Bool.not_false, if_true, gt_iff_lt, and_self]
    ext <;> simp [Vector2D.add, Vector2D.mul, Vector2D.sub] <;> ring
  · simp only [applyFrictionTo, applyGravityTo, PhysicsObject.addForce, hs, hfa, ← hzero,
      Bool.not_false, if_true, gt_iff_lt, lt_irrefl, and_false, if_false]
    ext <;> simp [Vector2D.add, Vector2D.mul, Vector2D.sub]

/-- One Euler or SemiImplicitEuler step of a body under gravity and linear
friction only, starting from an empty force accumulator. -/
theorem stepObject_gravity_friction (e : PhysicsEngine F) (dt : F) (o : PhysicsObject F)
    (hg : e.gravityEnabled = true) (hair : e.airResistanceCoefficient = 0)
    (hm : e.integrationMethod = IntegrationMethod.Euler ∨
      e.integrationMethod = IntegrationMethod.SemiImplicitEuler)
    (hs : o.isStatic = false)
    (hmass : 0 < o.mass) (hf : 0 ≤ o.friction) (hfa : o.forceAccumulator = ⟨0, 0⟩) :
    (e.stepObject dt o).acceleration = e.gravity.sub (o.velocity.mul (o.friction / o.mass)) ∧
    (e.stepObject dt o).velocity = o.velocity.add ((e.stepObject dt o).acceleration.mul dt) ∧
    (e.stepObject dt o).position = o.position.add ((e.stepObject dt o).velocity.mul dt) := by
  have hne : o.mass ≠ 0 := ne_of_gt hmass
  obtain ⟨hp, hv, -, hst, him⟩ := forceFrame_fields _ _ (forces_frame e o)
  obtain ⟨h1, h2, h3⟩ := integrateObject_euler_fields e.integrationMethod hm dt _ (hst.trans hs)
  have hF := forces_gravity_friction e o hg hair hs hf hfa
  rw [hv] at h2
  rw [hp] at h3
  rw [hF, him] at h1
  refine ⟨?_, h2, h3⟩
  show (integrateObject e.integrationMethod dt _).acceleration = _
  rw [h1]
  ext <;> simp [Vector2D.mul, Vector2D.sub, PhysicsObject.getInverseMass, hs] <;> field_simp

/-- C14: with `gravityEnabled`, `airResistanceCoefficient = 0`,
`collisionsEnabled = false` and integration method Euler or SemiImplicitEuler,
for every non-static body of the collection with mass `m > 0`, friction
`f ≥ 0`, velocity `v`, position `p` and zero force accumulator, `update(dt)`
yields `acceleration' = gravity - (f/m) * v`,
`velocity' = v + acceleration' * dt` and `position' = p + velocity' * dt`. -/
theorem euler_step_gravity_friction (e : PhysicsEngine F) (dt : F) (k : Nat)
    (o : PhysicsObject F)
    (hg : e.gravityEnabled = true) (hair : e.airResistanceCoefficient = 0)
    (hc : e.collisionsEnabled = false)
    (hm : e.integrationMethod = IntegrationMethod.Euler ∨
      e.integrationMethod = IntegrationMethod.SemiImplicitEuler)
    (hk : e.objects[k]? = some o) (hs : o.isStatic = false)
    (hmass : 0 < o.mass) (hf : 0 ≤ o.friction) (hfa : o.forceAccumulator = ⟨0, 0⟩) :
    ∃ o2, (e.update dt).objects[k]? = some o2 ∧
      o2.acceleration = e.gravity.sub (o.velocity.mul (o.friction / o.mass)) ∧
      o2.velocity = o.velocity.add (o2.acceleration.mul dt) ∧
      o2.position = o.position.add (o2.velocity.mul dt) :=
  ⟨e.stepObject dt o, update_getElem_of_no_collisions e dt k o hc hk,
    stepObject_gravity_friction e dt o hg hair hm hs hmass hf hfa⟩

/-- C15 (amended): with integration method Verlet and `collisionsEnabled = false`,
for every non-static body of the collection with position `p`,
previousPosition `q` and every `dt ≠ 0`, `update(dt)` yields
`position' = 2*p - q + a*dt^2` with `a` the force accumulated in this step
times the inverse mass (it is stored as `acceleration'`),
`previousPosition' = p` and `velocity' = (position' - p) / dt`.  The pre-step
velocity enters `position'` only through `a`: when the body's friction is
`≤ 0` and `airResistanceCoefficient ≤ 0`, replacing the body's pre-step
velocity by any other leaves `position'` the same. -/
theorem verlet_step (e : PhysicsEngine F) (dt : F) (k : Nat) (o : PhysicsObject F)
    (hm : e.integrationMethod = IntegrationMethod.Verlet)
    (hc : e.collisionsEnabled = false)
    (hk : e.objects[k]? = some o) (hs : o.isStatic = false) (_hdt : dt ≠ 0) :
    ∃ o2, (e.update dt).objects[k]? = some o2 ∧
      o2.acceleration =
        ((applyAirResistanceTo e.airResistanceCoefficient
          (applyFrictionTo (if e.gravityEnabled then applyGravityTo e.gravity o else o))
          ).forceAccumulator).mul o.getInverseMass ∧
      o2.position = ((o.position.mul 2).sub o.previousPosition).add (o2.acceleration.mul (dt * dt)) ∧
      o2.previousPosition = o.position ∧
      o2.velocity = (o2.position.sub o.position).div dt ∧
      (o.friction ≤ 0 → e.airResistanceCoefficient ≤ 0 → ∀ vel : Vector2D F,
        ∃ o3, ({ e with objects := e.objects.set k { o with velocity := vel } }.update dt).objects[k]?
            = some o3 ∧
          o3.position = o2.position) := by
  refine ⟨e.stepObject dt o, update_getElem_of_no_collisions e dt k o hc hk, ?_⟩
  obtain ⟨hp, -, hq, hst, him⟩ := forceFrame_fields _ _ (forces_frame e o)
  have hi := integrateObject_verlet_fields dt
    (applyAirResistanceTo e.airResistanceCoefficient
      (applyFrictionTo (if e.gravityEnabled then applyGravityTo e.gravity o else o)))
    (hst.trans hs)
  rw [← hm, hp, hq, him] at hi
  obtain ⟨h1, h2, h3, h4⟩ := hi
  refine ⟨h1, h2, h3, h4, ?_⟩
  intro hf hair vel
  have hlt : k < e.objects.length := getElem?_lt e.objects k o hk
  have hk2 : (e.objects.set k { o with velocity := vel })[k]? = some { o with velocity := vel } := by
    simp [List.getElem?_set, hlt]
  have hu := update_getElem_of_no_collisions
    { e with objects := e.objects.set k { o with velocity := vel } } dt k
    { o with velocity := vel } hc hk2
  refine ⟨_, hu, ?_⟩
  have hnf : ¬ o.friction > 0 := not_lt.mpr hf
  have hna : ¬ e.airResistanceCoefficient > 0 := not_lt.mpr hair
  cases hg : e.gravityEnabled <;>
    simp [stepObject, hm, hg, applyGravityTo, applyFrictionTo, applyAirResistanceTo,
      integrateObject, integrateVerlet, PhysicsObject.addForce, PhysicsObject.clearForces,
      PhysicsObject.getInverseMass, hs, hnf, hna]

end StepClaims

section BoundaryBounce

variable {F : Type} [LinearOrderedField F]

open PhysicsEngine

/-- The two horizontal boundary blocks together, in a window at least one
diameter wide: at most one of them fires. -/
theorem clampX_spec (W : F) (o : PhysicsObject F) (hW : 2 * o.radius ≤ W) :
    (clampRight W (clampLeft o)).velocity.x =
      (if o.position.x - o.radius < 0 ∨ o.position.x + o.radius > W
        then -o.restitution * o.velocity.x else o.velocity.x) ∧
    (clampRight W (clampLeft o)).velocity.y = o.velocity.y ∧
    (clampRight W (clampLeft o)).position.y = o.position.y ∧
    (clampRight W (clampLeft o)).radius = o.radius ∧
    (clampRight W (clampLeft o)).restitution = o.restitution ∧
    (¬ (o.position.x - o.radius < 0 ∨ o.position.x + o.radius > W) →
      clampRight W (clampLeft o) = o) := by
  by_cases h1 : o.position.x - o.radius < 0
  · have h2 : ¬ (o.radius + o.radius > W) := by
      intro h; linarith
    simp only [clampLeft, clampRight, h1, if_true, h2, if_false, true_or, not_true_eq_false,
      false_implies, and_true]
    ring
  · by_cases h2 : o.position.x + o.radius > W
    · simp only [clampLeft, clampRight, h1, if_false, h2, if_true, or_true, not_true_eq_false,
        false_implies, and_true]
      ring
    · simp [clampLeft, clampRight, h1, h2]

/-- The two vertical boundary blocks together, in a window at least one
diameter high: at most one of them fires, and the resting friction multiplies
`velocity.x` by `0.95` when the bottom block fired and the bounced
`velocity.y` is below 10 in absolute value. -/
theorem clampY_spec (H : F) (o : PhysicsObject F) (hH : 2 * o.radius ≤ H) :
    (clampBottom H (clampTop o)).velocity.y =
      (if o.position.y - o.radius < 0 ∨ o.position.y + o.radius > H
        then -o.restitution * o.velocity.y else o.velocity.y) ∧
    (clampBottom H (clampTop o)).velocity.x =
      o.velocity.x *
        (if o.position.y + o.radius > H ∧ |(clampBottom H (clampTop o)).velocity.y| < 10
          then 19 / 20 else 1) ∧
    (¬ (o.position.y - o.radius < 0 ∨ o.position.y + o.radius > H) →
      clampBottom H (clampTop o) = o) := by
  by_cases h1 : o.position.y - o.radius < 0
  · have h2 : ¬ (o.radius + o.radius > H) := by
      intro h; linarith
    have h3 : ¬ (o.position.y + o.radius > H) := by
      intro h; linarith
    simp only [clampTop, clampBottom, h1, if_true, h2, if_false, true_or, not_true_eq_false,
      false_implies, and_true, h3, false_and, mul_one]
    ring
  · by_cases h2 : o.position.y + o.radius > H
    · simp only [clampTop, clampBottom, h1, if_false, h2, if_true, or_true, not_true_eq_false,
        false_implies, and_true, true_and]
      by_cases h3 : |o.velocity.y * -o.restitution| < 10
      · simp only [h3, if_true]
        refine ⟨?_, trivial⟩
        ring
      · simp only [h3, if_false, mul_one]
        refine ⟨?_, trivial⟩
        ring
    · simp [clampTop, clampBottom, h1, h2]

/-- C17: with `boundaryEnabled`, `W ≥ 2*radius` and `H ≥ 2*radius`, a body of the
collection is found at the same index after `handleBoundaryCollisions(W, H)`.
If it is a non-static Circle, `velocity.y' = -restitution * velocity.y` when
`position.y` was clamped (`position.y - radius < 0` or
`position.y + radius > H`) and `velocity.y` otherwise; `velocity.x'` is
`-restitution * velocity.x` when `position.x` was clamped
(`position.x - radius < 0` or `position.x + radius > W`) and `velocity.x`
otherwise, multiplied by `0.95` exactly when the bottom boundary was clamped
(`position.y + radius > H`) and `|velocity.y'| < 10`; a non-static Circle
within bounds on both axes is unchanged.  A static body and a Box body are
unchanged. -/
theorem boundary_bounce (e : PhysicsEngine F) (W H : F) (k : Nat) (o : PhysicsObject F)
    (hb : e.boundaryEnabled = true) (hk : e.objects[k]? = some o)
    (hW : 2 * o.radius ≤ W) (hH : 2 * o.radius ≤ H) :
    ∃ o2, (e.handleBoundaryCollisions W H).objects[k]? = some o2 ∧
      (o.isStatic = false → o.shape = ShapeType.Circle →
        o2.velocity.y =
          (if o.position.y - o.radius < 0 ∨ o.position.y + o.radius > H
            then -o.restitution * o.velocity.y else o.velocity.y) ∧
        o2.velocity.x =
          (if o.position.x - o.radius < 0 ∨ o.position.x + o.radius > W
            then -o.restitution * o.velocity.x else o.velocity.x) *
          (if o.position.y + o.radius > H ∧ |o2.velocity.y| < 10 then 19 / 20 else 1) ∧
        (¬ (o.position.x - o.radius < 0 ∨ o.position.x + o.radius > W) →
          ¬ (o.position.y - o.radius < 0 ∨ o.position.y + o.radius > H) → o2 = o)) ∧
      (o.isStatic = true → o2 = o) ∧
      (o.shape = ShapeType.Box → o2 = o) := by
  refine ⟨handleBoundaryCollisionsOf W H o, ?_, ?_, ?_, ?_⟩
  · simp [handleBoundaryCollisions, hb, List.getElem?_map, hk]
  · intro hs hc
    have hof : handleBoundaryCollisionsOf W H o
        = clampBottom H (clampTop (clampRight W (clampLeft o))) := by
      simp [handleBoundaryCollisionsOf, hs, hc]
    rw [hof]
    obtain ⟨hx, hy, hpy, hr, hrest, hxid⟩ := clampX_spec W o hW
    obtain ⟨h1, h2, h3⟩ := clampY_spec H (clampRight W (clampLeft o)) (by rw [hr]; exact hH)
    rw [hpy, hr, hrest, hy] at h1
    rw [hpy, hr, hx] at h2
    rw [hpy, hr] at h3
    refine ⟨h1, h2, ?_⟩
    intro hnx hny
    rw [h3 hny, hxid hnx]
  · intro hs
    simp [handleBoundaryCollisionsOf, hs]
  · intro hbox
    simp [handleBoundaryCollisionsOf, hbox]

end BoundaryBounce

section Drag

variable {F : Type} [LinearOrderedField F] [HasSqrt F]

open PhysicsEngine

/-- A squared speed above the threshold `1e-4` forces a speed above it as well
(the speed is then above `1e-2`), so `normalized()` divides. -/
theorem magnitude_gt_of_magnitudeSquared_gt (hsq : SqrtSpec F) (v : Vector2D F)
    (h : epsilon F < v.magnitudeSquared) : epsilon F < v.magnitude := by
  by_contra hle
  have hle2 : v.magnitude ≤ epsilon F := not_lt.mp hle
  have h0 := magnitude_nonneg hsq v
  have hm := magnitude_mul_self hsq v
  have hsqle : v.magnitude * v.magnitude ≤ epsilon F * epsilon F :=
    mul_self_le_mul_self h0 hle2
  have heps : epsilon F * epsilon F < epsilon F := by
    unfold epsilon; norm_num
  unfold Vector2D.magnitudeSquared at h
  linarith

/-- The drag force computed by `applyAirResistance`, above the thresholds. -/
theorem drag_force_spec (hsq : SqrtSpec F) (c : F) (v : Vector2D F) (hc : 0 < c)
    (h : epsilon F < v.magnitudeSquared) :
    (v.normalized.mul (-1)).mul (c * v.magnitudeSquared)
      = (v.div v.magnitude).mul (-(c * v.magnitudeSquared)) ∧
    (∃ t : F, 0 < t ∧ (v.div v.magnitude).mul (-(c * v.magnitudeSquared)) = v.mul (-t)) ∧
    ((v.div v.magnitude).mul (-(c * v.magnitudeSquared))).magnitude = c * v.magnitudeSquared := by
  have hmag := magnitude_gt_of_magnitudeSquared_gt hsq v h
  have hpos : 0 < v.magnitude := lt_trans epsilon_pos hmag
  have hne : v.magnitude ≠ 0 := ne_of_gt hpos
  have hm := magnitude_mul_self hsq v
  have hs : 0 < v.magnitudeSquared := lt_trans epsilon_pos h
  have hn : v.normalized = v.div v.magnitude := by
    simp [Vector2D.normalized, hmag]
  refine ⟨?_, ⟨c * v.magnitudeSquared / v.magnitude, div_pos (mul_pos hc hs) hpos, ?_⟩, ?_⟩
  · rw [hn]
    ext <;> simp only [Vector2D.mul, Vector2D.div] <;> ring
  · ext <;> simp only [Vector2D.mul, Vector2D.div] <;> field_simp
  · have hcs : 0 ≤ c * v.magnitudeSquared := le_of_lt (mul_pos hc hs)
    have key : ((v.div v.magnitude).mul (-(c * v.magnitudeSquared))).x *
          ((v.div v.magnitude).mul (-(c * v.magnitudeSquared))).x +
        ((v.div v.magnitude).mul (-(c * v.magnitudeSquared))).y *
          ((v.div v.magnitude).mul (-(c * v.magnitudeSquared))).y
        = (c * v.magnitudeSquared) * (c * v.magnitudeSquared) := by
      simp only [Vector2D.mul, Vector2D.div]
      field_simp
      linear_combination (-(c * v.magnitudeSquared) ^ 2) * hm
    exact (congrArg HasSqrt.sqrt key).trans (sqrt_mul_self hsq _ hcs)

/-- C16: `applyAirResistance(c)` keeps every body at its index.  For a
non-static body with `c > 0` and `|velocity|^2 > 1e-4` the magnitude of the
velocity exceeds `1e-4` too, so the normalization divides (its zero-vector
fallback is not taken), and the force accumulator afterwards is, component by
component, the old one plus `-(c * |velocity|^2) * (velocity / |velocity|)`,
no other field changing; the added force is a negative multiple of the
velocity and has magnitude `c * |velocity|^2`.  Every other body (static,
`c ≤ 0`, or `|velocity|^2 ≤ 1e-4`) is unchanged.  Here `|velocity|^2` is
`vx*vx + vy*vy` and `|velocity|` its square root. -/
theorem quadratic_drag (hsq : SqrtSpec F) (e : PhysicsEngine F) (c : F) (k : Nat)
    (o : PhysicsObject F) (hk : e.objects[k]? = some o) :
    ∃ o2, (e.applyAirResistance c).objects[k]? = some o2 ∧
      (o.isStatic = false → 0 < c →
        epsilon F < o.velocity.x * o.velocity.x + o.velocity.y * o.velocity.y →
        epsilon F < HasSqrt.sqrt (o.velocity.x * o.velocity.x + o.velocity.y * o.velocity.y) ∧
        o.velocity.normalized =
          ⟨o.velocity.x / HasSqrt.sqrt (o.velocity.x * o.velocity.x + o.velocity.y * o.velocity.y),
           o.velocity.y / HasSqrt.sqrt (o.velocity.x * o.velocity.x + o.velocity.y * o.velocity.y)⟩ ∧
        o2.forceAccumulator.x = o.forceAccumulator.x +
          -(c * (o.velocity.x * o.velocity.x + o.velocity.y * o.velocity.y)) *
            (o.velocity.x /
              HasSqrt.sqrt (o.velocity.x * o.velocity.x + o.velocity.y * o.velocity.y)) ∧
        o2.forceAccumulator.y = o.forceAccumulator.y +
          -(c * (o.velocity.x * o.velocity.x + o.velocity.y * o.velocity.y)) *
            (o.velocity.y /
              HasSqrt.sqrt (o.velocity.x * o.velocity.x + o.velocity.y * o.velocity.y)) ∧
        o2 = { o with forceAccumulator := o2.forceAccumulator } ∧
        (∃ t : F, 0 < t ∧
          -(c * (o.velocity.x * o.velocity.x + o.velocity.y * o.velocity.y)) *
            (o.velocity.x /
              HasSqrt.sqrt (o.velocity.x * o.velocity.x + o.velocity.y * o.velocity.y))
            = -t * o.velocity.x ∧
          -(c * (o.velocity.x * o.velocity.x + o.velocity.y * o.velocity.y)) *
            (o.velocity.y /
              HasSqrt.sqrt (o.velocity.x * o.velocity.x + o.velocity.y * o.velocity.y))
            = -t * o.velocity.y) ∧
        HasSqrt.sqrt
          ((-(c * (o.velocity.x * o.velocity.x + o.velocity.y * o.velocity.y)) *
              (o.velocity.x /
                HasSqrt.sqrt (o.velocity.x * o.velocity.x + o.velocity.y * o.velocity.y))) *
            (-(c * (o.velocity.x * o.velocity.x + o.velocity.y * o.velocity.y)) *
              (o.velocity.x /
                HasSqrt.sqrt (o.velocity.x * o.velocity.x + o.velocity.y * o.velocity.y))) +
           (-(c * (o.velocity.x * o.velocity.x + o.velocity.y * o.velocity.y)) *
              (o.velocity.y /
                HasSqrt.sqrt (o.velocity.x * o.velocity.x + o.velocity.y * o.velocity.y))) *
            (-(c * (o.velocity.x * o.velocity.x + o.velocity.y * o.velocity.y)) *
              (o.velocity.y /
                HasSqrt.sqrt (o.velocity.x * o.velocity.x + o.velocity.y * o.velocity.y))))
          = c * (o.velocity.x * o.velocity.x + o.velocity.y * o.velocity.y)) ∧
      (¬ (o.isStatic = false ∧ 0 < c ∧
          epsilon F < o.velocity.x * o.velocity.x + o.velocity.y * o.velocity.y) → o2 = o) := by
  refine ⟨applyAirResistanceTo c o, ?_, ?_, ?_⟩
  · simp [applyAirResistance, List.getElem?_map, hk]
  · intro hs hc h
    have h0 : epsilon F < o.velocity.magnitudeSquared := h
    have hmag := magnitude_gt_of_magnitudeSquared_gt hsq _ h0
    obtain ⟨h1, ⟨t, ht, h2⟩, h3⟩ := drag_force_spec hsq c o.velocity hc h0
    have hn : o.velocity.normalized = o.velocity.div o.velocity.magnitude := by
      simp [Vector2D.normalized, hmag]
    have hstep : applyAirResistanceTo c o =
        o.addForce ((o.velocity.div o.velocity.magnitude).mul
          (-(c * o.velocity.magnitudeSquared))) := by
      rw [← h1]
      simp [applyAirResistanceTo, hs, hc, h0]
    have h2x := congrArg Vector2D.x h2
    have h2y := congrArg Vector2D.y h2
    simp only [Vector2D.magnitude, Vector2D.mul, Vector2D.div, Vector2D.magnitudeSquared]
      at h2x h2y h3
    refine ⟨hmag, hn, ?_, ?_, ?_, ⟨t, ht, ?_, ?_⟩, ?_⟩
    · rw [hstep]
      simp only [PhysicsObject.addForce, Vector2D.add, Vector2D.mul, Vector2D.div,
        Vector2D.magnitude, Vector2D.magnitudeSquared]
      ring
    · rw [hstep]
      simp only [PhysicsObject.addForce, Vector2D.add, Vector2D.mul, Vector2D.div,
        Vector2D.magnitude, Vector2D.magnitudeSquared]
      ring
    · rw [hstep]
      rfl
    · rw [mul_comm, h2x]; ring
    · rw [mul_comm, h2y]; ring
    · refine Eq.trans (congrArg HasSqrt.sqrt ?_) h3
      ring
  · intro hn
    unfold applyAirResistanceTo
    simp only []
    split_ifs with h1 h2
    · exfalso
      apply hn
      refine ⟨?_, h1.2, h2⟩
      have := h1.1
      simpa using this
    · rfl
    · rfl

end Drag

section FreeFall

variable {F : Type} [LinearOrderedField F] [HasSqrt F]

open PhysicsEngine

theorem stepObject_mass_static (e : PhysicsEngine F) (dt : F) (o : PhysicsObject F) :
    (e.stepObject dt o).mass = o.mass ∧ (e.stepObject dt o).isStatic = o.isStatic := by
  have hff := forces_frame e o
  have hmass := congrArg PhysicsObject.mass hff.1
  have hst := congrArg PhysicsObject.isStatic hff.1
  simp only [] at hmass hst
  have hi := integrateObject_mass_static e.integrationMethod dt
    (applyAirResistanceTo e.airResistanceCoefficient
      (applyFrictionTo (if e.gravityEnabled then applyGravityTo e.gravity o else o)))
  exact ⟨hi.1.trans hmass, hi.2.trans hst⟩

theorem magnitude_vertical (hsq : SqrtSpec F) (g : F) :
    Vector2D.magnitude (⟨0, g⟩ : Vector2D F) = |g| := by
  unfold Vector2D.magnitude
  have h : (0 : F) * 0 + g * g = |g| * |g| := by
    rw [abs_mul_abs_self]; ring
  simp only [h]
  exact sqrt_mul_self hsq _ (abs_nonneg g)

/-- The total energy of an engine holding one body. -/
theorem getTotalEnergy_single (e : PhysicsEngine F) (o : PhysicsObject F)
    (ho : e.objects = [o]) :
    e.getTotalEnergy = o.getKineticEnergy + o.getPotentialEnergy e.gravity.magnitude := by
  unfold getTotalEnergy getTotalKineticEnergy getTotalPotentialEnergy
  rw [ho]
  simp

/-- The change of `getTotalEnergy()` over one `update(dt)` in free fall: a
single non-static body, vertical gravity `(0, g)`, no friction, no air
resistance, Euler or SemiImplicitEuler.  With `vy` the initial vertical
velocity it is `m*(g + |g|)*vy*dt + m*g*(g/2 + |g|)*dt^2`. -/
theorem free_fall_energy_change (hsq : SqrtSpec F) (e : PhysicsEngine F) (dt g : F)
    (o : PhysicsObject F) (ho : e.objects = [o]) (hgv : e.gravity = ⟨0, g⟩)
    (hg : e.gravityEnabled = true) (hair : e.airResistanceCoefficient = 0)
    (hm : e.integrationMethod = IntegrationMethod.Euler ∨
      e.integrationMethod = IntegrationMethod.SemiImplicitEuler)
    (hs : o.isStatic = false) (hmass : 0 < o.mass) (hf : o.friction = 0)
    (hfa : o.forceAccumulator = ⟨0, 0⟩) :
    (e.update dt).getTotalEnergy - e.getTotalEnergy =
      o.mass * (g + |g|) * o.velocity.y * dt + o.mass * g * (g / 2 + |g|) * (dt * dt) := by
  have hobjs : (e.update dt).objects = [e.stepObject dt o] := by
    rw [update_objects, ho]
    simp only [List.map_cons, List.map_nil, handleCollisionsList_singleton]
    split_ifs <;> rfl
  have hgrav : (e.update dt).gravity = e.gravity := by
    rw [update_settings e dt]
  rw [getTotalEnergy_single (e.update dt) _ hobjs, getTotalEnergy_single e o ho, hgrav, hgv,
    magnitude_vertical hsq g]
  obtain ⟨hacc, hvel, hpos⟩ :=
    stepObject_gravity_friction e dt o hg hair hm hs hmass (le_of_eq hf.symm) hfa
  obtain ⟨hmass2, hst2⟩ := stepObject_mass_static e dt o
  simp only [PhysicsObject.getKineticEnergy, PhysicsObject.getPotentialEnergy, hst2, hs, hmass2,
    Bool.false_eq_true, if_false, Vector2D.magnitudeSquared]
  rw [hpos, hvel, hacc, hgv, hf]
  simp only [Vector2D.add, Vector2D.sub, Vector2D.mul, zero_div, mul_zero, sub_zero, zero_mul,
    add_zero]
  ring

end FreeFall

section LaterExamples

open PhysicsEngine

/-- C11, the code at the failing input: a single non-static body of mass 1
without friction, falling with velocity `(0, 1)` in an engine with the
constructor's gravity `(0, 980)` and method SemiImplicitEuler and no air
resistance.  Over one `update(dt)` the total energy changes by
`1960*dt + 1440600*dt^2`, so no constant `C` bounds the change by `C*dt^2`
on `0 < dt ≤ 1`: `getPotentialEnergy` grows with `position.y`, the direction
in which gravity accelerates the body, so kinetic and potential energy rise
together. -/
theorem free_fall_energy_first_order :
    (∀ dt : ℝ,
      @getTotalEnergy ℝ _ ⟨Real.sqrt⟩ (@update ℝ _ ⟨Real.sqrt⟩ freeFallEngine dt)
        - @getTotalEnergy ℝ _ ⟨Real.sqrt⟩ freeFallEngine
        = 1960 * dt + 1440600 * (dt * dt)) ∧
    ¬ ∃ C : ℝ, ∀ dt : ℝ, 0 < dt → dt ≤ 1 →
      |@getTotalEnergy ℝ _ ⟨Real.sqrt⟩ (@update ℝ _ ⟨Real.sqrt⟩ freeFallEngine dt)
        - @getTotalEnergy ℝ _ ⟨Real.sqrt⟩ freeFallEngine| ≤ C * dt ^ 2 := by
  have hform : ∀ dt : ℝ,
      @getTotalEnergy ℝ _ ⟨Real.sqrt⟩ (@update ℝ _ ⟨Real.sqrt⟩ freeFallEngine dt)
        - @getTotalEnergy ℝ _ ⟨Real.sqrt⟩ freeFallEngine
        = 1960 * dt + 1440600 * (dt * dt) := by
    intro dt
    have h := @free_fall_energy_change ℝ _ ⟨Real.sqrt⟩ real_sqrtSpec freeFallEngine dt 980
      freeFallBall rfl rfl rfl rfl (Or.inr rfl) rfl
      (by norm_num [freeFallBall, ballAt, PhysicsObject.new]) rfl rfl
    rw [h]
    have habs : |(980 : ℝ)| = 980 := abs_of_pos (by norm_num)
    rw [habs]
    norm_num [freeFallBall, ballAt, PhysicsObject.new]
  refine ⟨hform, ?_⟩
  rintro ⟨C, hC⟩
  have h1 := hC 1 (by norm_num) (le_refl _)
  rw [hform 1] at h1
  have hCpos : (980 : ℝ) < C := by
    have : |(1960 : ℝ) * 1 + 1440600 * (1 * 1)| = 1442560 := by norm_num
    rw [this] at h1
    linarith
  have hCne : C ≠ 0 := by linarith
  have hd0 : (0 : ℝ) < 980 / C := div_pos (by norm_num) (by linarith)
  have hd1 : 980 / C ≤ 1 := by
    rw [div_le_one (by linarith)]; linarith
  have h2 := hC (980 / C) hd0 hd1
  rw [hform (980 / C)] at h2
  have hpos : 0 ≤ 1960 * (980 / C) + 1440600 * (980 / C * (980 / C)) := by positivity
  rw [abs_of_nonneg hpos] at h2
  have hCeq : C * (980 / C) ^ 2 = 980 * (980 / C) := by
    field_simp
    ring
  rw [hCeq] at h2
  have hsq0 : 0 ≤ 1440600 * (980 / C * (980 / C)) := by positivity
  nlinarith

theorem separateObjects_static {F : Type} [LinearOrderedField F] [HasSqrt F]
    (n : Vector2D F) (a b : PhysicsObject F)
    (has : a.isStatic = true) (hbs : b.isStatic = true) : separateObjects n a b = (a, b) := by
  unfold separateObjects
  simp only [has, hbs, Bool.not_true, Bool.false_eq_true, if_false]
  split_ifs <;> rfl

/-- C12, the code at the failing input: two static circles of radius 20 at rest
with centres `(0, 0)` and `(10, 0)`.  `handleCollisions` runs
`resolveCircleCircleCollision` on them (both are circles and they overlap);
the separation block leaves them as they are, `velocityAlongNormal` is 0, not
`> 0`, so the impulse scalar is computed, and its divisor
`a.getInverseMass() + b.getInverseMass()` is 0. -/
theorem impulse_divisor_zero_for_static_pair :
    (staticBallAt (⟨0, 0⟩ : Vector2D ℝ)).isStatic = true ∧
    (staticBallAt (⟨10, 0⟩ : Vector2D ℝ)).isStatic = true ∧
    (staticBallAt (⟨0, 0⟩ : Vector2D ℝ)).shape = ShapeType.Circle ∧
    (staticBallAt (⟨10, 0⟩ : Vector2D ℝ)).shape = ShapeType.Circle ∧
    @checkCircleCircleCollision ℝ _ ⟨Real.sqrt⟩ (staticBallAt ⟨0, 0⟩) (staticBallAt ⟨10, 0⟩)
      = true ∧
    @separateObjects ℝ _ ⟨Real.sqrt⟩
      (@Vector2D.normalized ℝ _ ⟨Real.sqrt⟩
        ((staticBallAt (⟨10, 0⟩ : Vector2D ℝ)).position.sub
          (staticBallAt (⟨0, 0⟩ : Vector2D ℝ)).position))
      (staticBallAt ⟨0, 0⟩) (staticBallAt ⟨10, 0⟩)
      = (staticBallAt ⟨0, 0⟩, staticBallAt ⟨10, 0⟩) ∧
    ¬ (velocityAlongNormal
      (@Vector2D.normalized ℝ _ ⟨Real.sqrt⟩
        ((staticBallAt (⟨10, 0⟩ : Vector2D ℝ)).position.sub
          (staticBallAt (⟨0, 0⟩ : Vector2D ℝ)).position))
      (staticBallAt ⟨0, 0⟩) (staticBallAt ⟨10, 0⟩) > 0) ∧
    impulseDivisor (staticBallAt (⟨0, 0⟩ : Vector2D ℝ)) (staticBallAt (⟨10, 0⟩ : Vector2D ℝ))
      = 0 := by
  have h10 := real_distance_horizontal 0 10 0 (by norm_num)
  refine ⟨rfl, rfl, rfl, rfl, ?_, ?_, ?_, ?_⟩
  · simp only [checkCircleCircleCollision, staticBallAt, ballAt, PhysicsObject.new,
      decide_eq_true_eq]
    rw [h10]
    norm_num
  · exact @separateObjects_static ℝ _ ⟨Real.sqrt⟩ _ _ _ rfl rfl
  · simp [velocityAlongNormal, staticBallAt, ballAt, PhysicsObject.new, Vector2D.sub,
      Vector2D.dot]
  · simp [impulseDivisor, PhysicsObject.getInverseMass, staticBallAt]

/-- Witness for C14: a default ball in a default engine with air resistance
and collisions switched off, stepped by `dt = 1`. -/
theorem euler_step_gravity_friction_witness :
    ∃ o2, (@update ℝ _ ⟨Real.sqrt⟩
        { engineWith [ballAt (⟨0, 0⟩ : Vector2D ℝ)] with
          airResistanceCoefficient := 0, collisionsEnabled := false } 1).objects[0]? = some o2 ∧
      o2.acceleration =
        ({ engineWith [ballAt (⟨0, 0⟩ : Vector2D ℝ)] with
          airResistanceCoefficient := 0, collisionsEnabled := false } : PhysicsEngine ℝ).gravity.sub
          ((ballAt (⟨0, 0⟩ : Vector2D ℝ)).velocity.mul
            ((ballAt (⟨0, 0⟩ : Vector2D ℝ)).friction / (ballAt (⟨0, 0⟩ : Vector2D ℝ)).mass)) ∧
      o2.velocity = (ballAt (⟨0, 0⟩ : Vector2D ℝ)).velocity.add (o2.acceleration.mul 1) ∧
      o2.position = (ballAt (⟨0, 0⟩ : Vector2D ℝ)).position.add (o2.velocity.mul 1) :=
  @euler_step_gravity_friction ℝ _ ⟨Real.sqrt⟩
    { engineWith [ballAt (⟨0, 0⟩ : Vector2D ℝ)] with
      airResistanceCoefficient := 0, collisionsEnabled := false } 1 0 (ballAt ⟨0, 0⟩)
    rfl rfl rfl (Or.inr rfl) rfl rfl
    (by norm_num [ballAt, PhysicsObject.new]) (by norm_num [ballAt, PhysicsObject.new]) rfl

/-- Witness for C19: two overlapping bodies of the ElasticCollisions kind. -/
theorem momentum_conserved_witness :
    ((@resolveCircleCircleCollision ℝ _ ⟨Real.sqrt⟩
        (elasticBall ⟨0, 0⟩ ⟨200, 0⟩) (elasticBall ⟨30, 0⟩ ⟨-100, 5⟩)).1.velocity.mul
          (elasticBall (⟨0, 0⟩ : Vector2D ℝ) ⟨200, 0⟩).mass).add
      ((@resolveCircleCircleCollision ℝ _ ⟨Real.sqrt⟩
        (elasticBall ⟨0, 0⟩ ⟨200, 0⟩) (elasticBall ⟨30, 0⟩ ⟨-100, 5⟩)).2.velocity.mul
          (elasticBall (⟨30, 0⟩ : Vector2D ℝ) ⟨-100, 5⟩).mass) =
      ((elasticBall (⟨0, 0⟩ : Vector2D ℝ) ⟨200, 0⟩).velocity.mul
          (elasticBall (⟨0, 0⟩ : Vector2D ℝ) ⟨200, 0⟩).mass).add
        ((elasticBall (⟨30, 0⟩ : Vector2D ℝ) ⟨-100, 5⟩).velocity.mul
          (elasticBall (⟨30, 0⟩ : Vector2D ℝ) ⟨-100, 5⟩).mass) ∧
    (@resolveCircleCircleCollision ℝ _ ⟨Real.sqrt⟩
        (elasticBall ⟨0, 0⟩ ⟨200, 0⟩) (elasticBall ⟨30, 0⟩ ⟨-100, 5⟩)).1.mass
      = (elasticBall (⟨0, 0⟩ : Vector2D ℝ) ⟨200, 0⟩).mass ∧
    (@resolveCircleCircleCollision ℝ _ ⟨Real.sqrt⟩
        (elasticBall ⟨0, 0⟩ ⟨200, 0⟩) (elasticBall ⟨30, 0⟩ ⟨-100, 5⟩)).2.mass
      = (elasticBall (⟨30, 0⟩ : Vector2D ℝ) ⟨-100, 5⟩).mass :=
  @momentum_conserved ℝ _ ⟨Real.sqrt⟩
    (elasticBall ⟨0, 0⟩ ⟨200, 0⟩) (elasticBall ⟨30, 0⟩ ⟨-100, 5⟩) rfl rfl
    (by norm_num [elasticBall, PhysicsObject.new]) (by norm_num [elasticBall, PhysicsObject.new])

/-- Witness for C15 (amended): the frictionless `freeFallBall` in a Verlet
engine without collisions and air resistance, stepped by `dt = 1`. -/
theorem verlet_step_witness :
    ∃ o2, (@update ℝ _ ⟨Real.sqrt⟩ (verletEngineWith [freeFallBall]) 1).objects[0]? = some o2 ∧
      o2.acceleration =
        ((@applyAirResistanceTo ℝ _ ⟨Real.sqrt⟩
          (verletEngineWith [freeFallBall] : PhysicsEngine ℝ).airResistanceCoefficient
          (applyFrictionTo
            (if (verletEngineWith [freeFallBall] : PhysicsEngine ℝ).gravityEnabled
              then applyGravityTo (verletEngineWith [freeFallBall] : PhysicsEngine ℝ).gravity
                freeFallBall
              else freeFallBall))).forceAccumulator).mul
          (freeFallBall : PhysicsObject ℝ).getInverseMass ∧
      o2.position =
        (((freeFallBall : PhysicsObject ℝ).position.mul 2).sub
          (freeFallBall : PhysicsObject ℝ).previousPosition).add (o2.acceleration.mul (1 * 1)) ∧
      o2.previousPosition = (freeFallBall : PhysicsObject ℝ).position ∧
      o2.velocity = (o2.position.sub (freeFallBall : PhysicsObject ℝ).position).div 1 ∧
      ((freeFallBall : PhysicsObject ℝ).friction ≤ 0 →
        (verletEngineWith [freeFallBall] : PhysicsEngine ℝ).airResistanceCoefficient ≤ 0 →
        ∀ vel : Vector2D ℝ,
          ∃ o3, (@update ℝ _ ⟨Real.sqrt⟩
              { (verletEngineWith [freeFallBall] : PhysicsEngine ℝ) with
                objects := (verletEngineWith [freeFallBall] : PhysicsEngine ℝ).objects.set 0
                  { (freeFallBall : PhysicsObject ℝ) with velocity := vel } } 1).objects[0]?
              = some o3 ∧
            o3.position = o2.position) :=
  @verlet_step ℝ _ ⟨Real.sqrt⟩ (verletEngineWith [freeFallBall]) 1 0 freeFallBall
    rfl rfl rfl rfl (by norm_num)

/-- C15 (as stated) fails: in a Verlet engine without collisions and air
resistance, two default balls (friction 0.1, mass 1) at `(0, 0)` that differ
only in their pre-step velocity, `(0, 0)` and `(10, 0)`, are at `(0, 980)` and
at `(-1, 980)` after `update(1)`: the friction force `-friction * velocity`
enters the accumulated force, so the pre-step velocity does influence
`position'`. -/
theorem verlet_step_counterexample :
    ∃ o2 o3 : PhysicsObject ℝ,
      (@update ℝ _ ⟨Real.sqrt⟩ (verletEngineWith [ballAt ⟨0, 0⟩]) 1).objects[0]? = some o2 ∧
      (@update ℝ _ ⟨Real.sqrt⟩
        (verletEngineWith [{ ballAt ⟨0, 0⟩ with velocity := ⟨10, 0⟩ }]) 1).objects[0]? = some o3 ∧
      o2.position = ⟨0, 980⟩ ∧ o3.position = ⟨-1, 980⟩ ∧ o2.position ≠ o3.position := by
  letI : HasSqrt ℝ := ⟨Real.sqrt⟩
  refine ⟨@stepObject ℝ _ ⟨Real.sqrt⟩ (verletEngineWith [ballAt ⟨0, 0⟩]) 1 (ballAt ⟨0, 0⟩),
    @stepObject ℝ _ ⟨Real.sqrt⟩ (verletEngineWith [{ ballAt ⟨0, 0⟩ with velocity := ⟨10, 0⟩ }]) 1
      { ballAt ⟨0, 0⟩ with velocity := ⟨10, 0⟩ },
    @update_getElem_of_no_collisions ℝ _ ⟨Real.sqrt⟩ _ 1 0 _ rfl rfl,
    @update_getElem_of_no_collisions ℝ _ ⟨Real.sqrt⟩ _ 1 0 _ rfl rfl, ?_, ?_, ?_⟩
  · simp [stepObject, verletEngineWith, engineWith, PhysicsEngine.new, ballAt,
      PhysicsObject.new, PhysicsObject.addForce, applyGravityTo, applyFrictionTo,
      applyAirResistanceTo, integrateObject, integrateVerlet, PhysicsObject.clearForces,
      PhysicsObject.getInverseMass, Vector2D.add, Vector2D.mul, Vector2D.sub]
  · simp [stepObject, verletEngineWith, engineWith, PhysicsEngine.new, ballAt,
      PhysicsObject.new, PhysicsObject.addForce, applyGravityTo, applyFrictionTo,
      applyAirResistanceTo, integrateObject, integrateVerlet, PhysicsObject.clearForces,
      PhysicsObject.getInverseMass, Vector2D.add, Vector2D.mul, Vector2D.sub]
  · simp [stepObject, verletEngineWith, engineWith, PhysicsEngine.new, ballAt,
      PhysicsObject.new, PhysicsObject.addForce, applyGravityTo, applyFrictionTo,
      applyAirResistanceTo, integrateObject, integrateVerlet, PhysicsObject.clearForces,
      PhysicsObject.getInverseMass, Vector2D.add, Vector2D.mul, Vector2D.sub]

/-- Witness for C16: a non-static ball with velocity `(3, 4)` (speed 5, squared
speed 25) holding the force `(1, 2)`, coefficient `0.01`.  The three
conditions of the drag branch hold, and the accumulator afterwards is
`(1, 2) - 0.25 * (3/5, 4/5) = (17/20, 9/5)`, nothing else changing. -/
theorem quadratic_drag_witness :
    (loadedMovingBall : PhysicsObject ℝ).isStatic = false ∧ (0 : ℝ) < 1 / 100 ∧
    epsilon ℝ < (loadedMovingBall : PhysicsObject ℝ).velocity.x *
        (loadedMovingBall : PhysicsObject ℝ).velocity.x +
      (loadedMovingBall : PhysicsObject ℝ).velocity.y *
        (loadedMovingBall : PhysicsObject ℝ).velocity.y ∧
    ∃ o2 : PhysicsObject ℝ,
      (@applyAirResistance ℝ _ ⟨Real.sqrt⟩ (engineWith [loadedMovingBall]) (1 / 100)).objects[0]?
        = some o2 ∧
      o2.forceAccumulator.x = 17 / 20 ∧ o2.forceAccumulator.y = 9 / 5 ∧
      o2 = { (loadedMovingBall : PhysicsObject ℝ) with forceAccumulator := ⟨17 / 20, 9 / 5⟩ } := by
  have hs : (loadedMovingBall : PhysicsObject ℝ).isStatic = false := rfl
  have hc : (0 : ℝ) < 1 / 100 := by norm_num
  have hv : epsilon ℝ < (loadedMovingBall : PhysicsObject ℝ).velocity.x *
        (loadedMovingBall : PhysicsObject ℝ).velocity.x +
      (loadedMovingBall : PhysicsObject ℝ).velocity.y *
        (loadedMovingBall : PhysicsObject ℝ).velocity.y := by
    norm_num [loadedMovingBall, movingBall, ballAt, PhysicsObject.new, epsilon]
  refine ⟨hs, hc, hv, ?_⟩
  obtain ⟨o2, hget, hdrag, -⟩ := @quadratic_drag ℝ _ ⟨Real.sqrt⟩ real_sqrtSpec
    (engineWith [loadedMovingBall]) (1 / 100) 0 loadedMovingBall rfl
  obtain ⟨-, -, hx, hy, hframe, -, -⟩ := hdrag hs hc hv
  have h5 : Real.sqrt ((3 : ℝ) * 3 + 4 * 4) = 5 := by
    have e : (3 : ℝ) * 3 + 4 * 4 = 5 * 5 := by norm_num
    rw [e]
    exact Real.sqrt_mul_self (by norm_num)
  have hx2 : o2.forceAccumulator.x = 17 / 20 := by
    rw [hx]
    simp only [loadedMovingBall, movingBall, ballAt, PhysicsObject.new, h5]
    norm_num
  have hy2 : o2.forceAccumulator.y = 9 / 5 := by
    rw [hy]
    simp only [loadedMovingBall, movingBall, ballAt, PhysicsObject.new, h5]
    norm_num
  refine ⟨o2, hget, hx2, hy2, ?_⟩
  rw [hframe]
  have hfa : o2.forceAccumulator = ⟨17 / 20, 9 / 5⟩ := by
    ext
    · exact hx2
    · exact hy2
  rw [hfa]

/-- Witness for C17: a default ball at `(0, 50)` in a `1280 × 720` window. -/
theorem boundary_bounce_witness :
    ∃ o2, ((engineWith [ballAt (⟨0, 50⟩ : Vector2D ℚ)]).handleBoundaryCollisions 1280 720).objects[0]?
        = some o2 ∧
      ((ballAt (⟨0, 50⟩ : Vector2D ℚ)).isStatic = false →
        (ballAt (⟨0, 50⟩ : Vector2D ℚ)).shape = ShapeType.Circle →
        o2.velocity.y =
          (if (ballAt (⟨0, 50⟩ : Vector2D ℚ)).position.y - (ballAt (⟨0, 50⟩ : Vector2D ℚ)).radius < 0 ∨
              (ballAt (⟨0, 50⟩ : Vector2D ℚ)).position.y + (ballAt (⟨0, 50⟩ : Vector2D ℚ)).radius > 720
            then -(ballAt (⟨0, 50⟩ : Vector2D ℚ)).restitution * (ballAt (⟨0, 50⟩ : Vector2D ℚ)).velocity.y
            else (ballAt (⟨0, 50⟩ : Vector2D ℚ)).velocity.y) ∧
        o2.velocity.x =
          (if (ballAt (⟨0, 50⟩ : Vector2D ℚ)).position.x - (ballAt (⟨0, 50⟩ : Vector2D ℚ)).radius < 0 ∨
              (ballAt (⟨0, 50⟩ : Vector2D ℚ)).position.x + (ballAt (⟨0, 50⟩ : Vector2D ℚ)).radius > 1280
            then -(ballAt (⟨0, 50⟩ : Vector2D ℚ)).restitution * (ballAt (⟨0, 50⟩ : Vector2D ℚ)).velocity.x
            else (ballAt (⟨0, 50⟩ : Vector2D ℚ)).velocity.x) *
          (if (ballAt (⟨0, 50⟩ : Vector2D ℚ)).position.y + (ballAt (⟨0, 50⟩ : Vector2D ℚ)).radius > 720 ∧
              |o2.velocity.y| < 10 then 19 / 20 else 1) ∧
        (¬ ((ballAt (⟨0, 50⟩ : Vector2D ℚ)).position.x - (ballAt (⟨0, 50⟩ : Vector2D ℚ)).radius < 0 ∨
            (ballAt (⟨0, 50⟩ : Vector2D ℚ)).position.x + (ballAt (⟨0, 50⟩ : Vector2D ℚ)).radius > 1280) →
          ¬ ((ballAt (⟨0, 50⟩ : Vector2D ℚ)).position.y - (ballAt (⟨0, 50⟩ : Vector2D ℚ)).radius < 0 ∨
            (ballAt (⟨0, 50⟩ : Vector2D ℚ)).position.y + (ballAt (⟨0, 50⟩ : Vector2D ℚ)).radius > 720) →
          o2 = ballAt ⟨0, 50⟩)) ∧
      ((ballAt (⟨0, 50⟩ : Vector2D ℚ)).isStatic = true → o2 = ballAt ⟨0, 50⟩) ∧
      ((ballAt (⟨0, 50⟩ : Vector2D ℚ)).shape = ShapeType.Box → o2 = ballAt ⟨0, 50⟩) :=
  boundary_bounce (engineWith [ballAt ⟨0, 50⟩]) 1280 720 0 (ballAt ⟨0, 50⟩) rfl rfl
    (by norm_num [ballAt, PhysicsObject.new]) (by norm_num [ballAt, PhysicsObject.new])

/-- Witness for C18: two overlapping bodies of the ElasticCollisions kind with
centres 30 apart. -/
theorem law_of_restitution_witness :
    (velocityAlongNormal
        (@Vector2D.normalized ℝ _ ⟨Real.sqrt⟩
          ((elasticBall (⟨30, 0⟩ : Vector2D ℝ) ⟨-200, 0⟩).position.sub
            (elasticBall (⟨0, 0⟩ : Vector2D ℝ) ⟨200, 0⟩).position))
        (elasticBall ⟨0, 0⟩ ⟨200, 0⟩) (elasticBall ⟨30, 0⟩ ⟨-200, 0⟩) ≤ 0 →
      velocityAlongNormal
          (@Vector2D.normalized ℝ _ ⟨Real.sqrt⟩
            ((elasticBall (⟨30, 0⟩ : Vector2D ℝ) ⟨-200, 0⟩).position.sub
              (elasticBall (⟨0, 0⟩ : Vector2D ℝ) ⟨200, 0⟩).position))
          (@resolveCircleCircleCollision ℝ _ ⟨Real.sqrt⟩
            (elasticBall ⟨0, 0⟩ ⟨200, 0⟩) (elasticBall ⟨30, 0⟩ ⟨-200, 0⟩)).1
          (@resolveCircleCircleCollision ℝ _ ⟨Real.sqrt⟩
            (elasticBall ⟨0, 0⟩ ⟨200, 0⟩) (elasticBall ⟨30, 0⟩ ⟨-200, 0⟩)).2
        = -(min (elasticBall (⟨0, 0⟩ : Vector2D ℝ) ⟨200, 0⟩).restitution
              (elasticBall (⟨30, 0⟩ : Vector2D ℝ) ⟨-200, 0⟩).restitution) *
            velocityAlongNormal
              (@Vector2D.normalized ℝ _ ⟨Real.sqrt⟩
                ((elasticBall (⟨30, 0⟩ : Vector2D ℝ) ⟨-200, 0⟩).position.sub
                  (elasticBall (⟨0, 0⟩ : Vector2D ℝ) ⟨200, 0⟩).position))
              (elasticBall ⟨0, 0⟩ ⟨200, 0⟩) (elasticBall ⟨30, 0⟩ ⟨-200, 0⟩) ∧
      (@resolveCircleCircleCollision ℝ _ ⟨Real.sqrt⟩
          (elasticBall ⟨0, 0⟩ ⟨200, 0⟩) (elasticBall ⟨30, 0⟩ ⟨-200, 0⟩)).1.velocity.sub
          ((@Vector2D.normalized ℝ _ ⟨Real.sqrt⟩
            ((elasticBall (⟨30, 0⟩ : Vector2D ℝ) ⟨-200, 0⟩).position.sub
              (elasticBall (⟨0, 0⟩ : Vector2D ℝ) ⟨200, 0⟩).position)).mul
            ((@resolveCircleCircleCollision ℝ _ ⟨Real.sqrt⟩
              (elasticBall ⟨0, 0⟩ ⟨200, 0⟩) (elasticBall ⟨30, 0⟩ ⟨-200, 0⟩)).1.velocity.dot
              (@Vector2D.normalized ℝ _ ⟨Real.sqrt⟩
                ((elasticBall (⟨30, 0⟩ : Vector2D ℝ) ⟨-200, 0⟩).position.sub
                  (elasticBall (⟨0, 0⟩ : Vector2D ℝ) ⟨200, 0⟩).position))))
        = (elasticBall (⟨0, 0⟩ : Vector2D ℝ) ⟨200, 0⟩).velocity.sub
          ((@Vector2D.normalized ℝ _ ⟨Real.sqrt⟩
            ((elasticBall (⟨30, 0⟩ : Vector2D ℝ) ⟨-200, 0⟩).position.sub
              (elasticBall (⟨0, 0⟩ : Vector2D ℝ) ⟨200, 0⟩).position)).mul
            ((elasticBall (⟨0, 0⟩ : Vector2D ℝ) ⟨200, 0⟩).velocity.dot
              (@Vector2D.normalized ℝ _ ⟨Real.sqrt⟩
                ((elasticBall (⟨30, 0⟩ : Vector2D ℝ) ⟨-200, 0⟩).position.sub
                  (elasticBall (⟨0, 0⟩ : Vector2D ℝ) ⟨200, 0⟩).position)))) ∧
      (@resolveCircleCircleCollision ℝ _ ⟨Real.sqrt⟩
          (elasticBall ⟨0, 0⟩ ⟨200, 0⟩) (elasticBall ⟨30, 0⟩ ⟨-200, 0⟩)).2.velocity.sub
          ((@Vector2D.normalized ℝ _ ⟨Real.sqrt⟩
            ((elasticBall (⟨30, 0⟩ : Vector2D ℝ) ⟨-200, 0⟩).position.sub
              (elasticBall (⟨0, 0⟩ : Vector2D ℝ) ⟨200, 0⟩).position)).mul
            ((@resolveCircleCircleCollision ℝ _ ⟨Real.sqrt⟩
              (elasticBall ⟨0, 0⟩ ⟨200, 0⟩) (elasticBall ⟨30, 0⟩ ⟨-200, 0⟩)).2.velocity.dot
              (@Vector2D.normalized ℝ _ ⟨Real.sqrt⟩
                ((elasticBall (⟨30, 0⟩ : Vector2D ℝ) ⟨-200, 0⟩).position.sub
                  (elasticBall (⟨0, 0⟩ : Vector2D ℝ) ⟨200, 0⟩).position))))
        = (elasticBall (⟨30, 0⟩ : Vector2D ℝ) ⟨-200, 0⟩).velocity.sub
          ((@Vector2D.normalized ℝ _ ⟨Real.sqrt⟩
            ((elasticBall (⟨30, 0⟩ : Vector2D ℝ) ⟨-200, 0⟩).position.sub
              (elasticBall (⟨0, 0⟩ : Vector2D ℝ) ⟨200, 0⟩).position)).mul
            ((elasticBall (⟨30, 0⟩ : Vector2D ℝ) ⟨-200, 0⟩).velocity.dot
              (@Vector2D.normalized ℝ _ ⟨Real.sqrt⟩
                ((elasticBall (⟨30, 0⟩ : Vector2D ℝ) ⟨-200, 0⟩).position.sub
                  (elasticBall (⟨0, 0⟩ : Vector2D ℝ) ⟨200, 0⟩).position))))) ∧
    (velocityAlongNormal
        (@Vector2D.normalized ℝ _ ⟨Real.sqrt⟩
          ((elasticBall (⟨30, 0⟩ : Vector2D ℝ) ⟨-200, 0⟩).position.sub
            (elasticBall (⟨0, 0⟩ : Vector2D ℝ) ⟨200, 0⟩).position))
        (elasticBall ⟨0, 0⟩ ⟨200, 0⟩) (elasticBall ⟨30, 0⟩ ⟨-200, 0⟩) > 0 →
      (@resolveCircleCircleCollision ℝ _ ⟨Real.sqrt⟩
          (elasticBall ⟨0, 0⟩ ⟨200, 0⟩) (elasticBall ⟨30, 0⟩ ⟨-200, 0⟩)).1.velocity
        = (elasticBall (⟨0, 0⟩ : Vector2D ℝ) ⟨200, 0⟩).velocity ∧
      (@resolveCircleCircleCollision ℝ _ ⟨Real.sqrt⟩
          (elasticBall ⟨0, 0⟩ ⟨200, 0⟩) (elasticBall ⟨30, 0⟩ ⟨-200, 0⟩)).2.velocity
        = (elasticBall (⟨30, 0⟩ : Vector2D ℝ) ⟨-200, 0⟩).velocity) :=
  @law_of_restitution ℝ _ ⟨Real.sqrt⟩ real_sqrtSpec
    (elasticBall ⟨0, 0⟩ ⟨200, 0⟩) (elasticBall ⟨30, 0⟩ ⟨-200, 0⟩) _ rfl (Or.inl rfl)
    (fun _ => by norm_num [elasticBall, PhysicsObject.new])
    (fun _ => by norm_num [elasticBall, PhysicsObject.new])
    (by
      have h := real_distance_horizontal 0 30 0 (by norm_num)
      simp only [elasticBall, PhysicsObject.new, epsilon]
      rw [h]; norm_num)

end LaterExamples

end Physica
